import Mathlib

/-!
Verification development for the messaging-agent repository.

The Python sources under `src/` are shallowly embedded as Lean definitions:
pure helpers become Lean functions over `String`/`List Char`, stateful
modules (the Telegram tool server) become explicit state passing, and
fallible external calls (model completion, Telegram/Google APIs) are
passed in as `Except`-valued oracle arguments.  The agent loop
(`core/loop.py`) and multi-server dispatcher (`core/session.py`) are not
part of the source tree; those two components are modelled from the
specification, as marked in their doc comments.
-/

/-! ## Python string primitives (shared helpers) -/

/-- Whitespace test used by Python `str.strip()` (ASCII whitespace). -/
def pyIsSpace (c : Char) : Bool :=
  c = ' ' || c = '\t' || c = '\n' || c = '\r' || c = '\x0B' || c = '\x0C'

/-- `str.strip()` on a character list: drop whitespace from both ends. -/
def stripList (cs : List Char) : List Char :=
  ((cs.dropWhile pyIsSpace).reverse.dropWhile pyIsSpace).reverse

/-- Python `s.strip()`. -/
def pyStrip (s : String) : String := String.mk (stripList s.data)

/-- Helper for `pySplitlines`: split on newline characters, accumulator
holds the current (reversed) line. -/
def splitLinesAux : List Char → List Char → List String
  | [], acc => [String.mk acc.reverse]
  | c :: rest, acc =>
    if c = '\n' then
      String.mk acc.reverse :: (if rest.isEmpty then [] else splitLinesAux rest [])
    else splitLinesAux rest (c :: acc)

/-- Python `s.splitlines()` (newline-separated, no trailing empty line,
`"".splitlines() = []`). -/
def pySplitlines (s : String) : List String :=
  if s.data.isEmpty then [] else splitLinesAux s.data []

/-- Python `sep.join(parts)`. -/
def pyJoin (sep : String) : List String → String
  | [] => ""
  | [x] => x
  | x :: y :: rest => x ++ sep ++ pyJoin sep (y :: rest)

/-- Python `s.startswith(pre)`. -/
def pyStartswith (s pre : String) : Bool := pre.data.isPrefixOf s.data

/-- Python `s.split(sep)` for a single-character separator. -/
def splitOnCharAux (sep : Char) : List Char → List Char → List String
  | [], acc => [String.mk acc.reverse]
  | c :: rest, acc =>
    if c = sep then String.mk acc.reverse :: splitOnCharAux sep rest []
    else splitOnCharAux sep rest (c :: acc)

/-- Python `s.split(sep)` (single-character separator, keeps empty parts). -/
def pySplitChar (s : String) (sep : Char) : List String :=
  splitOnCharAux sep s.data []

/-- ASCII lower-casing of one character, as used on the short ASCII
direction/filler strings (`str.lower()`). -/
def pyLowerChar (c : Char) : Char := c.toLower

/-- Python `s.lower()` on a character list. -/
def pyLowerList (cs : List Char) : List Char := cs.map pyLowerChar

/-- Python `s.lower()`. -/
def pyLower (s : String) : String := String.mk (pyLowerList s.data)

/-! ## Perception and memory records

`modules/perception.py` and `modules/memory.py` only contribute plain data
carriers to the embedded code: `generate_plan` reads
`perception.user_input`, `perception.intent`, `perception.entities`,
`perception.tool_hint` and `memory_item.text`. -/

/-- The perception record consumed by the planner (spec §6: `{user_input,
intent, entities, tool_hint}`). -/
structure PerceptionResult where
  user_input : String
  intent : String
  entities : List String
  tool_hint : Option String
deriving DecidableEq

/-- One recorded memory fact; the planner prompt only reads its `text`. -/
structure MemoryItem where
  text : String
deriving DecidableEq

/-! ## Planner (`src/modules/decision.py`, `generate_plan`) -/

/-- `memory_texts = "\n".join(f"- {m.text}" for m in memory_items) or "None"`.
A Python `or` falls through exactly when the joined string is empty. -/
def memory_texts (memory_items : List MemoryItem) : String :=
  let s := pyJoin "\n" (memory_items.map (fun m => "- " ++ m.text))
  if s = "" then "None" else s

/-- `f"\nYou have access to the following tools:\n{tool_descriptions}" if tool_descriptions else ""`. -/
def tool_context (tool_descriptions : Option String) : String :=
  match tool_descriptions with
  | some td => if td = "" then "" else "\nYou have access to the following tools:\n" ++ td
  | none => ""

/-- `f"- The user's email address is: {user_email}" if user_email else ""`. -/
def email_line (user_email : Option String) : String :=
  match user_email with
  | some e => if e = "" then "" else "- The user\x27s email address is: " ++ e
  | none => ""

/-- `f"- The current spreadsheet_id is: {spreadsheet_id}" if spreadsheet_id else ""`. -/
def spreadsheet_line (spreadsheet_id : Option String) : String :=
  match spreadsheet_id with
  | some sid => if sid = "" then "" else "- The current spreadsheet_id is: " ++ sid
  | none => ""

/-- `f"- The extracted table data is: {table_data}" if table_data else ""`. -/
def table_line (table_data : Option String) : String :=
  match table_data with
  | some td => if td = "" then "" else "- The extracted table data is: " ++ td
  | none => ""

/-- The conditional email rule line of the prompt. -/
def email_rule (user_email : Option String) : String :=
  match user_email with
  | some e =>
    if e = "" then ""
    else "- For any tool that requires an email, always use the user\x27s email address exactly as provided above."
  | none => ""

/-- The conditional update rule line of the prompt. -/
def update_rule (spreadsheet_id table_data : Option String) : String :=
  match spreadsheet_id, table_data with
  | some sid, some td =>
    if sid = "" || td = "" then ""
    else "- If you have both a spreadsheet_id and table data, you MUST call update_sheet with spreadsheet_id, range_name=\x27A1\x27, and the table data as values."
  | _, _ => ""

/-- Static prompt text from the start of the f-string through `- Step: `. -/
def promptHead : String :=
  "\nYou are a reasoning-driven AI agent with access to tools and memory.\nYour job is to solve the user\x27s request step-by-step by reasoning through the problem, selecting a tool if needed, and continuing until the FINAL_ANSWER is produced.\n\nRespond in **exactly one line** using one of the following formats:\n\n- FUNCTION_CALL: tool_name|param1=value1|param2=value2\n- FINAL_ANSWER: [your final result] *(Not description, but actual final answer)\n\n🧠 Context:\n- Step: "

/-- Static prompt text: the spreadsheet rules block (template lines after
the `{update_rule}` interpolation), part 1. -/
def promptRules1 : String :=
  "📏 CRITICAL RULES FOR SPREADSHEET OPERATIONS:\n1. After extracting webpage data, you MUST call update_sheet before any other operations\n2. The update_sheet function requires:\n   - spreadsheet_id (from create_spreadsheet result)\n   - range_name (usually \"A1\")\n   - values (the extracted data)\n3. Never share or send email before updating the sheet\n4. If you have both spreadsheet_id and table_data, update_sheet MUST be your next action\n\n✅ Example Workflow for F1 standings:\n1. FUNCTION_CALL: search|query=\"current F1 standings\"\n2. FUNCTION_CALL: extract_webpage|url=\"https://www.formula1.com/en/results/2025/drivers\"\n3. FUNCTION_CALL: create_spreadsheet|title=\"F1 Standings 2025\"\n4. FUNCTION_CALL: update_sheet|spreadsheet_id=\"123456\"|range=\"A1\"|values=extracted_data\n5. FUNCTION_CALL: share_sheet|spreadsheet_id=\"123456\"|email=\"user@example.com\"|role=\"reader\"\n6. FUNCTION_CALL: send_email_with_link|to=\"user@example.com\"|subject=\"F1 Standings 2025\"|body=\"Here is the F1 standings spreadsheet:\"|link=\"https://docs.google.com/spreadsheets/d/123456\"\n7. FINAL_ANSWER: [Spreadsheet created, updated, shared, and email sent successfully]\n\n✅ Other Examples:\n- FUNCTION_CALL: add|a=5|b=3\n- FUNCTION_CALL: strings_to_chars_to_int|input.string=INDIA\n- FUNCTION_CALL: int_list_to_exponential_sum|input.int_list=[73,78,68,73,65]\n- FINAL_ANSWER: [42] → Always mention final answer to the query, not that some other description.\n\n"

/-- Static prompt text: the worked examples block, part 2. -/
def promptRules2 : String :=
  "✅ Examples:\n- User asks: \"Send a message \"hello bot\" on Telegram\"\n- FUNCTION_CALL: get_updates\n- FUNCTION_CALL: send_message|chat_id=\"123456\"|text=\"hello bot\"\n- FINAL_ANSWER: [Message sent successfully]\n\n✅ Examples:\n- User asks: \"Send email to \"John_doe@gmail.com\" with subject \"Hello\" and body \"How are you?\"\"\n- FUNCTION_CALL: send_email|to=\"John_doe@gmail.com\"|subject=\"Hello\"|body=\"How are you?\"\n- FINAL_ANSWER: [Email sent successfully]\n\n✅ Examples:\n- User asks: \"Create Spreadsheet in Google Sheets in google drive\"\n- FUNCTION_CALL: create_spreadsheet|title=\"New Spreadsheet\"\n- FINAL_ANSWER: [Spreadsheet created successfully]\n\n✅ Examples:\n- User asks: \"Update the spreadsheet in Google Sheets in google drive\"\n- FUNCTION_CALL: update_sheet|spreadsheet_id=\"123456\"|range=\"A1\"|values=[[1,2],[3,4]]\n- FINAL_ANSWER: [Spreadsheet updated successfully]\n\n✅ Examples:\n- User asks: \"Create a new folder in Google Drive\"\n- FUNCTION_CALL: create_folder|name=\"New Folder\"\n- FINAL_ANSWER: [Folder created successfully]\n\n✅ Examples:\n- User asks: \"Share the spreadsheet in Google Sheets in google drive with \"John_doe@gmail.com\" as a viewer\"\n- FUNCTION_CALL: share_sheet|spreadsheet_id=\"123456\"|email=\"John_doe@gmail.com\"|role=\"reader\"\n- FINAL_ANSWER: [Spreadsheet shared successfully]\n\n✅ Examples:\n- User asks: \"Find F1 standings and update a spreadsheet\"\n- FUNCTION_CALL: search|query=\"current F1 standings\"\n- FUNCTION_CALL: extract_webpage|url=\"https://www.formula1.com/en/results/2025/drivers\"\n- FUNCTION_CALL: create_spreadsheet|title=\"F1 Standings 2025\"\n- FUNCTION_CALL: update_sheet|spreadsheet_id=\"123456\"|range=\"A1\"|values=extracted_data\n- FUNCTION_CALL: share_sheet|spreadsheet_id=\"123456\"|email=\"user@example.com\"|role=\"reader\"\n- FUNCTION_CALL: send_email_with_link|to=\"user@example.com\"|subject=\"F1 Standings 2025\"|body=\"Here is the F1 standings spreadsheet:\"|link=\"https://docs.google.com/spreadsheets/d/123456\"\n- FINAL_ANSWER: [Spreadsheet created, updated, shared, and email sent successfully]\n\n✅ Examples:\n- User asks: \"What\x27s the relationship between Cricket and Sachin Tendulkar\"\n  - FUNCTION_CALL: search_documents|query=\"relationship between Cricket and Sachin Tendulkar\"\n  - [receives a detailed document]\n  - FINAL_ANSWER: [Sachin Tendulkar is widely regarded as the \"God of Cricket\" due to his exceptional skills, longevity, and impact on the sport in India. He is the leading run-scorer in both Test and ODI cricket, and the first to score 100 centuries in international cricket. His influence extends beyond his statistics, as he is seen as a symbol of passion, perseverance, and a national icon. ]\n\n---\n\n"

/-- Static prompt text: the IMPORTANT rules block, part 3 (ends with the
newline that closes the f-string). -/
def promptRules3 : String :=
  "📏 IMPORTANT Rules:\n\n- 🚫 Do NOT invent tools. Use only the tools listed above. Tool description has useage pattern, only use that.\n- 📄 If the question may relate to public/factual knowledge (like companies, people, places), use the `search_documents` tool to look for the answer.\n- 🧮 If the question is mathematical, use the appropriate math tool.\n- 🔁 Analyze that whether you have already got a good factual result from a tool, do NOT search again — summarize and respond with FINAL_ANSWER.\n- ❌ NEVER repeat tool calls with the same parameters unless the result was empty. When searching rely on first reponse from tools, as that is the best response probably.\n- ❌ NEVER output explanation text — only structured FUNCTION_CALL or FINAL_ANSWER.\n- ✅ Use nested keys like `input.string` or `input.int_list`, and square brackets for lists.\n- 💡 If no tool fits or you\x27re unsure, end with: FINAL_ANSWER: [unknown]\n- For Telegram, use the `get_updates` tool to get the latest updates and then use any other tool to send or receive a message.\n- For sending email, use the email address that is provided in the user input that has \x27@\x27 in it.\n- When working with spreadsheets and data:\n  1. First search for the data\n  2. Then extract the webpage content\n  3. Create the spreadsheet\n  4. Always always update the spreadsheet with the extracted data\n  5. Share the spreadsheet\n  6. Send email with the link\n- IMPORTANT: After extracting webpage data, you MUST always call update_sheet with the extracted data before sharing or sending email\n- IMPORTANT: The update_sheet function requires: spreadsheet_id, range (usually \"A1\"), and values (the extracted data)\n- IMPORTANT: If you have extracted data and a spreadsheet_id, you MUST necessarily call update_sheet before proceeding\n- ⏳ You have 7 attempts. Final attempt must end with FINAL_ANSWER.\n"

/-- `{perception.tool_hint or 'None'}`. -/
def toolHintText (tool_hint : Option String) : String :=
  match tool_hint with
  | some h => if h = "" then "None" else h
  | none => "None"

/-- The part of the planner prompt before the `{memory_texts}` interpolation. -/
def promptBeforeMemory (step_num max_steps : Nat) : String :=
  promptHead ++ toString step_num ++ " of " ++ toString max_steps ++ "\n- Memory: \n"

/-- The part of the planner prompt after the `{memory_texts}` interpolation. -/
def promptAfterMemory (perception : PerceptionResult)
    (tool_descriptions user_email spreadsheet_id table_data : Option String) : String :=
  "\n" ++ tool_context tool_descriptions ++ "\n" ++ email_line user_email ++ "\n"
    ++ spreadsheet_line spreadsheet_id ++ "\n" ++ table_line table_data
    ++ "\n\n🎯 Input Summary:\n- User input: \"" ++ perception.user_input
    ++ "\"\n- Intent: " ++ perception.intent
    ++ "\n- Entities: " ++ pyJoin ", " perception.entities
    ++ "\n- Tool hint: " ++ toolHintText perception.tool_hint
    ++ "\n\n" ++ email_rule user_email ++ "\n" ++ update_rule spreadsheet_id table_data
    ++ "\n\n" ++ promptRules1 ++ promptRules2 ++ promptRules3

/-- The full prompt built by `generate_plan` (the f-string of
`src/modules/decision.py`, lines 42-165). -/
def buildPrompt (perception : PerceptionResult) (memory_items : List MemoryItem)
    (tool_descriptions : Option String) (step_num max_steps : Nat)
    (user_email spreadsheet_id table_data : Option String) : String :=
  promptBeforeMemory step_num max_steps ++ memory_texts memory_items
    ++ promptAfterMemory perception tool_descriptions user_email spreadsheet_id table_data

/-- The directive-line test of `generate_plan`:
`line.strip().startswith("FUNCTION_CALL:") or line.strip().startswith("FINAL_ANSWER:")`. -/
def isDirectiveLine (line : String) : Bool :=
  pyStartswith (pyStrip line) "FUNCTION_CALL:" || pyStartswith (pyStrip line) "FINAL_ANSWER:"

/-- The lines that `generate_plan` scans: `raw.splitlines()` where
`raw = (await model.generate_text(prompt)).strip()`. -/
def planLines (out : String) : List String := pySplitlines (pyStrip out)

/-- The parsing tail of `generate_plan`: return the first stripped line
starting with a directive keyword, else the unknown fallback. -/
def parsePlanOutput (out : String) : String :=
  match (planLines out).find? isDirectiveLine with
  | some line => pyStrip line
  | none => "FINAL_ANSWER: [unknown]"

/-- `generate_plan` of `src/modules/decision.py`.  The completion service
is the oracle `model : String → Except String String`; a raised exception
is an `Except.error` and is absorbed by the `try/except` into the
`"FINAL_ANSWER: [unknown]"` fallback. -/
def generate_plan (perception : PerceptionResult) (memory_items : List MemoryItem)
    (tool_descriptions : Option String) (step_num max_steps : Nat)
    (user_email spreadsheet_id table_data : Option String)
    (model : String → Except String String) : String :=
  match model (buildPrompt perception memory_items tool_descriptions step_num max_steps
      user_email spreadsheet_id table_data) with
  | Except.error _ => "FINAL_ANSWER: [unknown]"
  | Except.ok out => parsePlanOutput out

/-! ## Agent loop and dispatcher (modelled from the spec)

`agent.py` drives `AgentLoop` (from `core/loop.py`) and `MultiMCP` (from
`core/session.py`); neither file is part of the source tree, so the two
components are modelled from spec §4.1 and §4.3. -/

/-- Modelled from the spec: the Planner output type of §3 (`core/loop.py`
is missing).  A `Directive` is a tagged union of `Invoke{tool_name,
arguments}` and `Finalize{answer}`. -/
inductive Directive
  | invoke (tool_name : String) (arguments : List (String × String))
  | finalize (answer : String)
deriving DecidableEq

/-- Modelled from the spec: one MemoryItem of the loop's Memory Store
(§3), with its source tag (`tool_result`, `error`, `note`) and the
structured payload of a tool call (`core/loop.py` is missing). -/
inductive LoopMemEntry
  | toolResult (tool_name : String) (arguments : List (String × String)) (result : String)
  | errorNote (msg : String)
  | note (msg : String)
deriving DecidableEq

/-- Modelled from the spec: the structured invoke payload of a memory
entry, if it has one. -/
def invokeOf : LoopMemEntry → Option (String × List (String × String) × String)
  | LoopMemEntry.toolResult t args r => some (t, args, r)
  | LoopMemEntry.errorNote _ => none
  | LoopMemEntry.note _ => none

/-- Modelled from the spec: the two most recent `Invoke` memory entries
(§4.3), most recent first. -/
def recentInvokes (mem : List LoopMemEntry) : List (String × List (String × String) × String) :=
  ((mem.filterMap invokeOf).reverse).take 2

/-- Modelled from the spec §4.3: the repetition guard — the new directive
matches the arguments of the two most recent `Invoke` memory entries and
the prior result was non-empty. -/
def repeatGuard (mem : List LoopMemEntry) (tool_name : String)
    (arguments : List (String × String)) : Bool :=
  let recent := recentInvokes mem
  recent.length = 2 &&
    recent.all (fun r => r.1 = tool_name && r.2.1 = arguments && r.2.2 ≠ "")

/-- Modelled from the spec: the observable outcome of one Agent Loop
iteration (`core/loop.py` is missing): the memory after the step, the
dispatcher call that was executed (if any), the final answer (if the
directive finalized), and whether the loop now coerces the planner to
request finalization on the following step. -/
structure LoopStepResult where
  mem : List LoopMemEntry
  dispatched : Option (String × List (String × String))
  finalized : Option String
  requestFinalize : Bool
deriving DecidableEq

/-- Modelled from the spec §4.3: one iteration of the Agent Loop on a
directive.  A `Finalize` ends the loop; an `Invoke` matching the
repetition guard is not dispatched and coerces finalization on the next
step; any other `Invoke` is executed through the dispatcher and its
result appended as a `tool_result` memory entry. -/
def loopStep (dispatch : String → List (String × String) → String)
    (mem : List LoopMemEntry) : Directive → LoopStepResult
  | Directive.finalize answer =>
    { mem := mem, dispatched := none, finalized := some answer, requestFinalize := false }
  | Directive.invoke tool_name arguments =>
    if repeatGuard mem tool_name arguments then
      { mem := mem ++ [LoopMemEntry.note "repeated call suppressed; finalize next"],
        dispatched := none, finalized := none, requestFinalize := true }
    else
      let r := dispatch tool_name arguments
      { mem := mem ++ [LoopMemEntry.toolResult tool_name arguments r],
        dispatched := some (tool_name, arguments), finalized := none,
        requestFinalize := false }

/-- Modelled from the spec: one tool's advertised contract (§3,
`core/session.py` is missing): name, usage string and parameter schema. -/
structure ToolDescriptor where
  name : String
  usage : String
  params : List (String × String × Bool)
deriving DecidableEq

/-- Modelled from the spec: a live tool-server session owned by the
dispatcher (§3), carrying the ToolDescriptors it advertises. -/
structure MCPSession where
  id : String
  tools : List ToolDescriptor
deriving DecidableEq

/-- Modelled from the spec: the multi-server dispatcher (`MultiMCP` of
`core/session.py` is missing) as the ordered list of its sessions. -/
structure Dispatcher where
  sessions : List MCPSession
deriving DecidableEq

/-- Modelled from the spec §4.1: `list_tools()` — snapshot of the merged
registry, session order preserved. -/
def list_tools (d : Dispatcher) : List ToolDescriptor :=
  (d.sessions.map MCPSession.tools).flatten

/-- Modelled from the spec §4.1: the owning session for a tool name (no
partial matching, no fallback). -/
def findOwner (d : Dispatcher) (name : String) : Option MCPSession :=
  d.sessions.find? (fun s => s.tools.any (fun t => t.name = name))

/-- Modelled from the spec §4.1: dispatch errors. -/
inductive DispatchError
  | unknownTool
  | timeout
  | sessionDown (id : String)
deriving DecidableEq

/-- Modelled from the spec §4.1: `call_tool(name, arguments)` — look up
the owning session; fail fast with `DispatchError::UnknownTool` if the
name is absent; otherwise forward the call on that session's channel
(the channel round trip is the oracle `respond`). -/
def call_tool (d : Dispatcher)
    (respond : String → String → List (String × String) → Except DispatchError String)
    (name : String) (arguments : List (String × String)) : Except DispatchError String :=
  match findOwner d name with
  | none => Except.error DispatchError.unknownTool
  | some s => respond s.id name arguments

/-! ## Email regex (`src/agent.py`, `extract_query_and_email`)

The pattern `([a-zA-Z0-9._%+-]+@[a-zA-Z0-9.-]+\.[a-zA-Z]\x7b2,\x7d)` is
embedded as a deterministic matcher.  Backtracking disappears: the local
part is the maximal run of local characters (`@` is not local, so a
shorter run is never viable), the domain part backtracks from the longest
run to the right-most dot that is followed by at least two letters, and
the top-level-domain run is the maximal letter run after that dot. -/

/-- `[a-zA-Z]`. -/
def isLetterChar (c : Char) : Bool :=
  ('a' ≤ c && c ≤ 'z') || ('A' ≤ c && c ≤ 'Z')

/-- `[0-9]`. -/
def isDigitChar (c : Char) : Bool := '0' ≤ c && c ≤ '9'

/-- `[a-zA-Z0-9._%+-]` — the local-part character class. -/
def isLocalChar (c : Char) : Bool :=
  isLetterChar c || isDigitChar c || c = '.' || c = '_' || c = '%' || c = '+' || c = '-'

/-- `[a-zA-Z0-9.-]` — the domain character class. -/
def isDomainChar (c : Char) : Bool :=
  isLetterChar c || isDigitChar c || c = '.' || c = '-'

/-- Is the character at index `i` of `M` a letter? -/
def letterAt (M : List Char) (i : Nat) : Bool :=
  match M[i]? with
  | some c => isLetterChar c
  | none => false

/-- Index `k` of the domain run `M` can serve as the `\.` of the pattern:
it holds a dot followed by at least two letters. -/
def goodDot (M : List Char) (k : Nat) : Bool :=
  M[k]? == some '.' && letterAt M (k + 1) && letterAt M (k + 2)

/-- Largest index `k` with `1 ≤ k ≤ bound` such that `goodDot M k`
(the regex engine gives back domain characters from the right). -/
def findGoodDot (M : List Char) : Nat → Option Nat
  | 0 => none
  | k + 1 => if goodDot M (k + 1) then some (k + 1) else findGoodDot M k

/-- Split the maximal domain run `M` as `domain ++ "." ++ tld ++ rest`:
returns the dot index and the length of the maximal letter run after it. -/
def domSplit (M : List Char) : Option (Nat × Nat) :=
  (findGoodDot M (M.length - 1)).map
    (fun k => (k, ((M.drop (k + 1)).takeWhile isLetterChar).length))

/-- Length of the regex match anchored at the start of `cs`, if any. -/
def matchLen (cs : List Char) : Option Nat :=
  let l := cs.takeWhile isLocalChar
  if l.length = 0 then none
  else
    match cs.drop l.length with
    | '@' :: rest =>
      let M := rest.takeWhile isDomainChar
      match domSplit M with
      | some (k, tlen) => some (l.length + 1 + k + 1 + tlen)
      | none => none
    | _ => none

/-- The maximal domain-character run at the head of a list. -/
def domRun (cs : List Char) : List Char := cs.takeWhile isDomainChar

/-- Does the list start with a letter? -/
def first1Letter : List Char → Bool
  | a :: _ => isLetterChar a
  | _ => false

/-- Does the list start with two letters? -/
def first2Letters : List Char → Bool
  | a :: b :: _ => isLetterChar a && isLetterChar b
  | _ => false

/-- Is there, at any index, a dot followed by two letters? -/
def dotLL0 : List Char → Bool
  | [] => false
  | c :: t => (c = '.' && first2Letters t) || dotLL0 t

/-- Is there, at any index other than the head, a dot followed by two
letters?  This is what `findGoodDot` searches for inside a domain run. -/
def dotLL1 : List Char → Bool
  | [] => false
  | _ :: t => dotLL0 t

/-- Is the head (if any) not a letter? -/
def headNotLetter : List Char → Bool
  | [] => true
  | c :: _ => !isLetterChar c

/-- Can the pattern match once the (possibly empty) leading local run of
`X` is adjoined to at least one more local character on its left?  Used
to analyse leftmost matching. -/
def tailMatch (X : List Char) : Bool :=
  match X.dropWhile isLocalChar with
  | d :: Y => d = '@' && (findGoodDot (Y.takeWhile isDomainChar)
      ((Y.takeWhile isDomainChar).length - 1)).isSome
  | [] => false

/-- `re.search`: leftmost match as `(start, length)`. -/
def firstMatch : List Char → Option (Nat × Nat)
  | [] => none
  | c :: t =>
    match matchLen (c :: t) with
    | some n => some (0, n)
    | none => (firstMatch t).map (fun p => (p.1 + 1, p.2))

/-- Fuel-driven engine for `subAll`; structural recursion on the fuel so
that concrete inputs evaluate by kernel reduction.  The out-of-fuel case
is never reached when the fuel dominates the list length. -/
def subAllFuel : Nat → List Char → List Char
  | _, [] => []
  | 0, c :: t => c :: t
  | fuel + 1, c :: t =>
    match matchLen (c :: t) with
    | some n => subAllFuel fuel (t.drop (n - 1))
    | none => c :: subAllFuel fuel t

/-- `re.sub(pattern, "", ·)`: remove every (leftmost, non-overlapping)
match.  A successful `matchLen` is at least `1`, so dropping `n - 1`
characters from the tail skips exactly the matched block. -/
def subAll (cs : List Char) : List Char := subAllFuel cs.length cs

/-- The filler alternatives of
`re.sub(r'(on gmail|and share with|to|for|at|via|by|with)$', '', query, flags=re.IGNORECASE)`. -/
def fillerAlts : List String := ["on gmail", "and share with", "to", "for", "at", "via", "by", "with"]

/-- Does the whole remaining text equal one of the filler alternatives,
case-insensitively?  (With the `$` anchor a match must reach the end.) -/
def fillerSuffixMatch (cs : List Char) : Bool :=
  fillerAlts.any (fun a => pyLowerList cs == a.data)

/-- Leftmost index from which a filler alternative matches to the end. -/
def fillerCut : List Char → Option Nat
  | [] => none
  | c :: t =>
    if fillerSuffixMatch (c :: t) then some 0 else (fillerCut t).map (· + 1)

/-- The filler `re.sub`: removes the matched suffix, if any. -/
def fillerSub (s : String) : String :=
  match fillerCut s.data with
  | some i => String.mk (s.data.take i)
  | none => s

/-- `re.search(email_pattern, message)` + `.group(0)`. -/
def emailOf (message : String) : Option String :=
  (firstMatch message.data).map (fun p => String.mk ((message.data.drop p.1).take p.2))

/-- `re.sub(email_pattern, '', message)` on strings. -/
def subAllStr (s : String) : String := String.mk (subAll s.data)

/-- `extract_query_and_email` of `src/agent.py`. -/
def extract_query_and_email (message : String) : String × Option String :=
  let email := emailOf message
  let query := pyStrip (subAllStr message)
  let query2 := pyStrip (fillerSub query)
  (query2, email)

/-! ## Agent workflow (`src/agent.py`, `process_telegram_message`) -/

/-- An `mcp.types.TextContent` value: the `type` tag (always `"text"`
here) and the text payload. -/
structure TextContent where
  type : String
  text : String
deriving DecidableEq

/-- Python `s[:n]`. -/
def pyTake (s : String) (n : Nat) : String := String.mk (s.data.take n)

/-- Fuel-driven engine for `pyReplace` (structural recursion on the
fuel; the out-of-fuel case is never reached when the fuel dominates the
list length). -/
def replaceListFuel (pat repl : List Char) : Nat → List Char → List Char
  | _, [] => []
  | 0, c :: t => c :: t
  | fuel + 1, c :: t =>
    if pat.isPrefixOf (c :: t) then
      repl ++ replaceListFuel pat repl fuel (t.drop (pat.length - 1))
    else c :: replaceListFuel pat repl fuel t

/-- Python `s.replace(pat, repl)` (all non-overlapping occurrences, left
to right; `pat` is never empty at the call sites). -/
def replaceList (pat repl : List Char) (cs : List Char) : List Char :=
  replaceListFuel pat repl cs.length cs

/-- Python `s.replace(pat, repl)`. -/
def pyReplace (s pat repl : String) : String :=
  String.mk (replaceList pat.data repl.data s.data)

/-- One element of a tool result `content` list: either it has a `.text`
attribute or only its `str(...)` rendering. -/
inductive ContentItem
  | withText (text : String)
  | other (reprS : String)
deriving DecidableEq

/-- The `content` attribute of a tool result: a list, an object with a
`.text` attribute, or something else (with its `str(...)` rendering). -/
inductive SheetContent
  | clist (items : List ContentItem) (reprS : String)
  | ctext (text : String)
  | cother (reprS : String)
deriving DecidableEq

/-- A tool-call result as probed by `process_telegram_message`: it may or
may not have a `content` attribute. -/
inductive SheetResult
  | withContent (c : SheetContent)
  | noContent (reprS : String)
deriving DecidableEq

/-- The `hasattr`/`isinstance` chain of `process_telegram_message` that
extracts `sheet_info` from the `create_spreadsheet` result. -/
def extractSheetInfo : SheetResult → String
  | SheetResult.withContent (SheetContent.clist (i :: _) _) =>
    match i with
    | ContentItem.withText t => t
    | ContentItem.other r => r
  | SheetResult.withContent (SheetContent.clist [] r) => r
  | SheetResult.withContent (SheetContent.ctext t) => t
  | SheetResult.withContent (SheetContent.cother r) => r
  | SheetResult.noContent r => r

/-- The external calls of the agent workflow.  Each `Except`-valued field
models an `await`/library call that can raise; `csvParse` models
`csv.reader` (pure, total on strings). -/
structure AgentOracles where
  agentRun : Except String (String × Option String)
  csvParse : String → List (List String)
  createSpreadsheet : String → Except String SheetResult
  parseSheetId : String → Except String String
  updateSheet : String → List (List String) → Except String String
  shareSheet : String → String → String → Except String Unit
  sendEmailWithLink : String → String → String → String → Except String Unit

/-- The table-building block of `process_telegram_message` (markdown `|`
rows, CSV fallback, single-cell fallback). -/
def buildTableData (last_table_data : Option String) (response_text : String)
    (csvParse : String → List (List String)) : List (List String) :=
  match last_table_data with
  | some t =>
    if t = "" then [[response_text]]
    else if t.data.contains '|' then
      ((pySplitlines t).filter (fun line => line.data.contains '|')).filterMap
        (fun line =>
          let row := ((pySplitChar line '|').map pyStrip).filter (fun cell => cell ≠ "")
          if row.isEmpty then none else some row)
    else if t.data.contains ',' then
      (csvParse t).filter (fun row => !row.isEmpty)
    else [[t]]
  | none => [[response_text]]

/-- The body of `process_telegram_message` inside its top-level `try`:
an `Except.error` is an exception escaping the inner workflow. -/
def process_telegram_message_body (message : String) (o : AgentOracles) :
    Except String String :=
  let qe := extract_query_and_email message
  match qe.2 with
  | none => Except.ok "Please provide both a search query and a valid email address."
  | some email =>
    if qe.1 = "" || email = "" || !email.data.contains '@'
        || !((pySplitChar email '@').getLastD "").data.contains '.' then
      Except.ok "Please provide both a search query and a valid email address."
    else do
      let ra ← o.agentRun
      let response_text := pyStrip (pyReplace ra.1 "FINAL_ANSWER:" "")
      let table_data := buildTableData ra.2 response_text o.csvParse
      let sheet_result ← o.createSpreadsheet ("Search Results: " ++ pyTake qe.1 30 ++ "...")
      let sheet_info := extractSheetInfo sheet_result
      match o.parseSheetId sheet_info with
      | Except.error _ => pure ("❌ Error creating spreadsheet: " ++ sheet_info)
      | Except.ok sheet_id =>
        match o.updateSheet sheet_id table_data with
        | Except.error e => pure ("❌ Error updating sheet: " ++ e)
        | Except.ok _ => do
          let _ ← o.shareSheet sheet_id email "reader"
          let _ ← o.sendEmailWithLink email ("Search Results: " ++ pyTake qe.1 30 ++ "...")
            ("Here are the search results for your query: " ++ qe.1
              ++ "\n\nYou can view the full results in the shared Google Sheet.") sheet_id
          pure ("✅ Results have been shared with " ++ email)

/-- `process_telegram_message` of `src/agent.py`: the whole workflow is
wrapped in `try/except`, converting any escaping exception into an
explicit error string. -/
def process_telegram_message (message : String) (o : AgentOracles) :
    Except String String :=
  match process_telegram_message_body message o with
  | Except.ok s => Except.ok s
  | Except.error e => Except.ok ("❌ Error processing your request: " ++ e)

/-! ## Telegram tool server (`src/mcp_servers/telegram_server.py`)

The module-level globals `sse_clients` (chat-id-keyed message queues) and
`active_chat_id` become the explicit state `TgState`; queues are FIFO
lists (`put` appends at the tail, `get_nowait` takes the head). -/

/-- One queued Telegram message dictionary; `user` is the optional
sub-dictionary (empty for outgoing messages, which carry no `user` key). -/
structure TgMessage where
  mtype : String
  text : String
  chat_id : String
  timestamp : String
  direction : String
  source : String
  user : List (String × String)
deriving DecidableEq

/-- The module-level mutable state of the Telegram server process. -/
structure TgState where
  sse_clients : List (String × List TgMessage)
  active_chat_id : Option String
deriving DecidableEq

/-- `chat_id in sse_clients`. -/
def hasQueue (st : TgState) (cid : String) : Bool :=
  (st.sse_clients.find? (fun p => p.1 = cid)).isSome

/-- The queue for `cid` (empty if absent). -/
def queueOfD (st : TgState) (cid : String) : List TgMessage :=
  match st.sse_clients.find? (fun p => p.1 = cid) with
  | some p => p.2
  | none => []

/-- Replace (or create) the queue bound to `cid`. -/
def setQueueList (cid : String) (q : List TgMessage) :
    List (String × List TgMessage) → List (String × List TgMessage)
  | [] => [(cid, q)]
  | p :: rest => if p.1 = cid then (cid, q) :: rest else p :: setQueueList cid q rest

/-- Replace (or create) the queue bound to `cid` in the state. -/
def setQueue (st : TgState) (cid : String) (q : List TgMessage) : TgState :=
  { st with sse_clients := setQueueList cid q st.sse_clients }

/-- `if chat_id not in sse_clients: sse_clients[chat_id] = Queue()`. -/
def ensureQueue (st : TgState) (cid : String) : TgState :=
  if hasQueue st cid then st else setQueue st cid []

/-- Python `a or b` on optional strings (empty string is falsy). -/
def pyOrOpt (a b : Option String) : Option String :=
  match a with
  | some s => if s = "" then b else some s
  | none => b

/-- `send_message` tool: fall back to the global `active_chat_id`, store
the outgoing message in the queue, then attempt the Telegram round trip
(`telegramSend`, whose failure is caught and reported as text). -/
def send_message (st : TgState) (text : String) (chat_id : Option String) (now : String)
    (telegramSend : String → String → Except String Unit) : TgState × TextContent :=
  match pyOrOpt chat_id st.active_chat_id with
  | none => (st, TextContent.mk "text" "Error: No chat_id provided and no active chat_id found")
  | some cid =>
    if cid = "" then
      (st, TextContent.mk "text" "Error: No chat_id provided and no active chat_id found")
    else
      let st1 := ensureQueue st cid
      let outgoing : TgMessage :=
        { mtype := "message", text := text, chat_id := cid, timestamp := now,
          direction := "outgoing", source := "user", user := [] }
      let st2 := setQueue st1 cid (queueOfD st1 cid ++ [outgoing])
      match telegramSend cid text with
      | Except.error e =>
        (st2, TextContent.mk "text" ("Error sending message via Telegram: " ++ e))
      | Except.ok _ => (st2, TextContent.mk "text" "Message sent successfully")

/-- One Telegram update as read by `get_updates`: the stringified chat id
of its message, when `update.message and update.message.chat` holds. -/
structure TgUpdateRec where
  messageChatId : Option String
deriving DecidableEq

/-- `get_updates` tool: fetch updates (`fetch` models the Telegram API
round trip), collect the chat ids and store the most recent one into the
global `active_chat_id`; `render` models the `json.dumps` of the reply. -/
def get_updates (st : TgState) (fetch : Except String (List TgUpdateRec))
    (render : List TgUpdateRec → List String → Option String → String) :
    TgState × TextContent :=
  match fetch with
  | Except.error e => (st, TextContent.mk "text" ("Error getting updates: " ++ e))
  | Except.ok updates =>
    let chatIds := updates.filterMap TgUpdateRec.messageChatId
    let newActive := chatIds.foldl (fun _ c => some c) st.active_chat_id
    ({ st with active_chat_id := newActive },
      TextContent.mk "text" (render updates chatIds newActive))

/-- `inspect_queue` tool: drain the whole queue into a list, put every
message back in the original order, report the contents (`render` models
the `json.dumps`). -/
def inspect_queue (st : TgState) (chat_id : String)
    (render : String → Nat → List TgMessage → String) : TgState × TextContent :=
  if hasQueue st chat_id then
    let messages := queueOfD st chat_id
    let st1 := setQueue st chat_id (messages.foldl (fun q m => q ++ [m]) [])
    (st1, TextContent.mk "text" (render chat_id messages.length messages))
  else
    (st, TextContent.mk "text" ("No queue exists for chat_id: " ++ chat_id))

/-- `receive_message` tool: examine the head of the queue, filter by the
normalized direction if one was requested, and put the examined message
back (at the tail) in every case. -/
def receive_message (st : TgState) (chat_id : String) (direction : Option String)
    (render : TgMessage → String) : TgState × TextContent :=
  let cid := if chat_id = "" then "default" else chat_id
  let st1 := ensureQueue st cid
  match queueOfD st1 cid with
  | [] => (st1, TextContent.mk "text" "No new messages")
  | m :: rest =>
    let putBack := setQueue st1 cid (rest ++ [m])
    match direction with
    | some d =>
      if d = "" then (putBack, TextContent.mk "text" (render m))
      else if pyLower (pyStrip m.direction) ≠ pyLower (pyStrip d) then
        (putBack, TextContent.mk "text" "No new messages matching the specified direction")
      else (putBack, TextContent.mk "text" (render m))
    | none => (putBack, TextContent.mk "text" (render m))

/-- `simulate_incoming_message` tool: enqueue a synthetic incoming
message. -/
def simulate_incoming_message (st : TgState) (chat_id text now : String) :
    TgState × TextContent :=
  let st1 := ensureQueue st chat_id
  let msg : TgMessage :=
    { mtype := "message", text := text, chat_id := chat_id, timestamp := now,
      direction := "incoming", source := "bot",
      user := [("id", "bot"), ("username", "simulated_bot"),
               ("first_name", "Simulated"), ("last_name", "Bot")] }
  (setQueue st1 chat_id (queueOfD st1 chat_id ++ [msg]),
    TextContent.mk "text" "Simulated message stored successfully")

/-! ## Google Drive and Gmail tool servers
(`src/mcp_servers/gdrive_server.py`, `src/mcp_servers/gmail_server.py`)

Each tool is a `try` body whose external calls are `Except`-valued
oracles, wrapped by the `except` clause that renders the exception as an
error `TextContent`. -/

/-- `create_spreadsheet` tool: authenticate, create the sheet
(`createExec` yields the new spreadsheet id), optionally move it into the
configured folder, and render the `{spreadsheet_id, url}` response. -/
def create_spreadsheet (creds : Option Unit) (buildSvc : Except String Unit)
    (createExec : Except String String) (cfgFolder : Option String)
    (moveExec : Except String Unit) (render : String → String) :
    Except String TextContent :=
  let body : Except String TextContent :=
    match creds with
    | none => Except.ok (TextContent.mk "text" "Error: Could not authenticate with Google Drive")
    | some _ => do
      let _ ← buildSvc
      let sid ← createExec
      let _ ← (match cfgFolder with | some _ => moveExec | none => pure ())
      pure (TextContent.mk "text" (render sid))
  match body with
  | Except.ok t => Except.ok t
  | Except.error e =>
    Except.ok (TextContent.mk "text" ("Error creating spreadsheet: " ++ e))

/-- `update_sheet` tool (`updateExec` yields the rendered update
summary). -/
def update_sheet (creds : Option Unit) (buildSvc : Except String Unit)
    (updateExec : Except String String) : Except String TextContent :=
  let body : Except String TextContent :=
    match creds with
    | none => Except.ok (TextContent.mk "text" "Error: Could not authenticate with Google Drive")
    | some _ => do
      let _ ← buildSvc
      let summary ← updateExec
      pure (TextContent.mk "text" summary)
  match body with
  | Except.ok t => Except.ok t
  | Except.error e => Except.ok (TextContent.mk "text" ("Error updating sheet: " ++ e))

/-- `share_sheet` tool. -/
def share_sheet (email : String) (creds : Option Unit) (buildSvc : Except String Unit)
    (permExec : Except String Unit) : Except String TextContent :=
  let body : Except String TextContent :=
    match creds with
    | none => Except.ok (TextContent.mk "text" "Error: Could not authenticate with Google Drive")
    | some _ => do
      let _ ← buildSvc
      let _ ← permExec
      pure (TextContent.mk "text" ("Successfully shared with " ++ email))
  match body with
  | Except.ok t => Except.ok t
  | Except.error e => Except.ok (TextContent.mk "text" ("Error sharing sheet: " ++ e))

/-- `send_email` tool (`sendExec` yields the rendered
`{message_id, thread_id}` response). -/
def send_email (creds : Option Unit) (buildSvc : Except String Unit)
    (sendExec : Except String String) : Except String TextContent :=
  let body : Except String TextContent :=
    match creds with
    | none => Except.ok (TextContent.mk "text" "Error: Could not authenticate with Gmail")
    | some _ => do
      let _ ← buildSvc
      let rendered ← sendExec
      pure (TextContent.mk "text" rendered)
  match body with
  | Except.ok t => Except.ok t
  | Except.error e => Except.ok (TextContent.mk "text" ("Error sending email: " ++ e))

/-- `send_email_with_link` tool. -/
def send_email_with_link (creds : Option Unit) (buildSvc : Except String Unit)
    (sendExec : Except String String) : Except String TextContent :=
  let body : Except String TextContent :=
    match creds with
    | none => Except.ok (TextContent.mk "text" "Error: Could not authenticate with Gmail")
    | some _ => do
      let _ ← buildSvc
      let rendered ← sendExec
      pure (TextContent.mk "text" rendered)
  match body with
  | Except.ok t => Except.ok t
  | Except.error e =>
    Except.ok (TextContent.mk "text" ("Error sending email with link: " ++ e))

/-! ## Concrete instances used by witnesses -/

/-- Modelled from the spec: the memory after the Agent Loop has processed
the same `Invoke` directive twice in a row. -/
def memAfterTwoInvokes (dispatch : String → List (String × String) → String)
    (mem : List LoopMemEntry) (tool_name : String)
    (arguments : List (String × String)) : List LoopMemEntry :=
  (loopStep dispatch (loopStep dispatch mem (Directive.invoke tool_name arguments)).mem
    (Directive.invoke tool_name arguments)).mem

/-- A trivial perception record for concrete evaluations. -/
def perc0 : PerceptionResult := { user_input := "", intent := "", entities := [], tool_hint := none }

/-- A one-session dispatcher advertising a single `add` tool. -/
def dispatcher0 : Dispatcher :=
  { sessions := [{ id := "math", tools := [{ name := "add", usage := "add|a=1|b=2", params := [] }] }] }

/-- A channel oracle that always answers `"8"`. -/
def respond0 : String → String → List (String × String) → Except DispatchError String :=
  fun _ _ _ => Except.ok "8"

/-- A dispatcher oracle for the loop that always answers `"8"`. -/
def dispatch0 : String → List (String × String) → String := fun _ _ => "8"

/-- Agent oracles whose agent run raises. -/
def oracleFail : AgentOracles :=
  { agentRun := Except.error "boom"
    csvParse := fun _ => []
    createSpreadsheet := fun _ => Except.error "unreached"
    parseSheetId := fun _ => Except.error "unreached"
    updateSheet := fun _ _ => Except.error "unreached"
    shareSheet := fun _ _ _ => Except.ok ()
    sendEmailWithLink := fun _ _ _ _ => Except.ok () }

/-- A telegram state with no queues and no active chat. -/
def tgStateEmpty : TgState := { sse_clients := [], active_chat_id := none }

/-- A telegram state with no queues and an active chat `"555"`. -/
def tgStateActive : TgState := { sse_clients := [], active_chat_id := some "555" }

/-- A renderer oracle for `get_updates`. -/
def tgRender0 : List TgUpdateRec → List String → Option String → String := fun _ _ _ => "updates"

/-- A Telegram send oracle that always succeeds. -/
def tgSend0 : String → String → Except String Unit := fun _ _ => Except.ok ()

/-! ## General helper lemmas -/

theorem string_mk_data (s : String) : String.mk s.data = s := rfl

theorem string_data_append (a b : String) : (a ++ b).data = a.data ++ b.data := rfl

theorem find?_eq_of_getElem {α : Type} (p : α → Bool) :
    ∀ (l : List α) (i : Nat) (x : α), l[i]? = some x → p x = true →
      (∀ y ∈ l.take i, p y = false) → l.find? p = some x := by
  intro l
  induction l with
  | nil => intro i x hx; simp at hx
  | cons a t ih =>
    intro i x hx hp hfirst
    cases i with
    | zero =>
      simp at hx
      subst hx
      exact List.find?_cons_of_pos _ hp
    | succ i =>
      have ha : p a = false := hfirst a (by simp [List.take_succ_cons])
      rw [List.find?_cons_of_neg _ (by simp [ha])]
      exact ih i x (by simpa using hx) hp
        (fun y hy => hfirst y (by simp [List.take_succ_cons, hy]))

theorem splitLinesAux_no_nl (cs : List Char) :
    ∀ acc : List Char, (∀ c ∈ cs, c ≠ '\n') →
      splitLinesAux cs acc = [String.mk (acc.reverse ++ cs)] := by
  induction cs with
  | nil => intro acc _; simp [splitLinesAux]
  | cons c rest ih =>
    intro acc h
    have hc : c ≠ '\n' := h c (by simp)
    simp only [splitLinesAux, if_neg hc]
    rw [ih (c :: acc) (fun d hd => h d (by simp [hd]))]
    simp

theorem isEmpty_false_of_ne {α : Type} {l : List α} (h : l ≠ []) : l.isEmpty = false := by
  cases l with
  | nil => exact absurd rfl h
  | cons a t => rfl

theorem splitLinesAux_append_nl (cs : List Char) :
    ∀ (acc t : List Char), (∀ c ∈ cs, c ≠ '\n') →
      splitLinesAux (cs ++ '\n' :: t) acc =
        String.mk (acc.reverse ++ cs) ::
          (if t.isEmpty then [] else splitLinesAux t []) := by
  induction cs with
  | nil => intro acc t _; simp [splitLinesAux]
  | cons c rest ih =>
    intro acc t h
    have hc : c ≠ '\n' := h c (by simp)
    have step : splitLinesAux ((c :: rest) ++ '\n' :: t) acc
        = splitLinesAux (rest ++ '\n' :: t) (c :: acc) := by
      simp [splitLinesAux, hc]
    rw [step, ih (c :: acc) t (fun d hd => h d (by simp [hd]))]
    simp

theorem pyJoin_cons_data_ne (y : String) (rest : List String) (hy : y.data ≠ []) :
    (pyJoin "\n" (y :: rest)).data ≠ [] := by
  cases rest with
  | nil => simpa [pyJoin]
  | cons z rs =>
    simp only [pyJoin, string_data_append]
    intro hcontra
    exact hy (List.append_eq_nil.mp (List.append_eq_nil.mp hcontra).1).1

theorem pySplitlines_join (l : List String) (hne : l ≠ [])
    (h : ∀ x ∈ l, x.data ≠ [] ∧ ∀ c ∈ x.data, c ≠ '\n') :
    pySplitlines (pyJoin "\n" l) = l := by
  induction l with
  | nil => exact absurd rfl hne
  | cons x rest ih =>
    cases rest with
    | nil =>
      obtain ⟨hx, hnl⟩ := h x (by simp)
      simp only [pyJoin, pySplitlines, isEmpty_false_of_ne hx, Bool.false_eq_true,
        if_false]
      rw [splitLinesAux_no_nl x.data [] hnl]
      simp [string_mk_data]
    | cons y rs =>
      obtain ⟨hx, hnl⟩ := h x (by simp)
      have hy : y.data ≠ [] := (h y (by simp)).1
      have hJ : (pyJoin "\n" (y :: rs)).data ≠ [] := pyJoin_cons_data_ne y rs hy
      have hdata : (pyJoin "\n" (x :: y :: rs)).data
          = x.data ++ '\n' :: (pyJoin "\n" (y :: rs)).data := by
        simp only [pyJoin, string_data_append]
        simp [List.append_assoc]
      have hconc : (pyJoin "\n" (x :: y :: rs)).data ≠ [] := by
        rw [hdata]
        intro hcontra
        exact hx (List.append_eq_nil.mp hcontra).1
      simp only [pySplitlines, isEmpty_false_of_ne hconc, Bool.false_eq_true, if_false,
        hdata]
      rw [splitLinesAux_append_nl x.data [] _ hnl]
      simp only [List.reverse_nil, List.nil_append, string_mk_data,
        isEmpty_false_of_ne hJ, Bool.false_eq_true, if_false]
      have hrec := ih (by simp) (fun z hz => h z (by simp [hz]))
      simp only [pySplitlines, isEmpty_false_of_ne hJ, Bool.false_eq_true, if_false] at hrec
      rw [hrec]
      have hne2 : (x.data ++ '\n' :: (pyJoin "\n" (y :: rs)).data).isEmpty = false :=
        isEmpty_false_of_ne (by simp)
      simp [hne2]

/-! ## Claim C1 -/

/-- C1 (counterexample): a completion output in which no line literally
begins with `FUNCTION_CALL:` or `FINAL_ANSWER:` (the only candidate line
starts with a space), yet `generate_plan` does not return the
`FINAL_ANSWER: [unknown]` fallback — the code tests
`line.strip().startswith(...)`, not `line.startswith(...)`. -/
theorem C1_counterexample :
    (∀ l ∈ pySplitlines "x\n FUNCTION_CALL: a",
        pyStartswith l "FUNCTION_CALL:" = false ∧ pyStartswith l "FINAL_ANSWER:" = false) ∧
    generate_plan perc0 [] none 1 3 none none none
        (fun _ => Except.ok "x\n FUNCTION_CALL: a") = "FUNCTION_CALL: a" := by
  constructor
  · decide
  · rfl

/-- C1 (amended): if the completion output contains no line whose
whitespace-stripped text begins with `FUNCTION_CALL:` or `FINAL_ANSWER:`
(the lines of the stripped output, exactly as `generate_plan` scans
them), or the completion call raises, then `generate_plan` returns
`"FINAL_ANSWER: [unknown]"` — and, being a total function into `String`,
it never propagates an exception past its boundary. -/
theorem C1_planner_unknown_fallback (perception : PerceptionResult)
    (memory_items : List MemoryItem) (tool_descriptions : Option String)
    (step_num max_steps : Nat) (user_email spreadsheet_id table_data : Option String)
    (model : String → Except String String)
    (h : ∀ out, model (buildPrompt perception memory_items tool_descriptions step_num
        max_steps user_email spreadsheet_id table_data) = Except.ok out →
      ∀ l ∈ planLines out, isDirectiveLine l = false) :
    generate_plan perception memory_items tool_descriptions step_num max_steps
      user_email spreadsheet_id table_data model = "FINAL_ANSWER: [unknown]" := by
  cases hm : model (buildPrompt perception memory_items tool_descriptions step_num
      max_steps user_email spreadsheet_id table_data) with
  | error e => simp [generate_plan, hm]
  | ok out =>
    have h2 := h out hm
    have hnone : (planLines out).find? isDirectiveLine = none := by
      rw [List.find?_eq_none]
      intro x hx
      simp [h2 x hx]
    simp [generate_plan, hm, parsePlanOutput, hnone]

/-- C1 witness: the fallback on a concrete directive-free output. -/
theorem C1_witness :
    generate_plan perc0 [] none 1 3 none none none
      (fun _ => Except.ok "hello\nworld") = "FINAL_ANSWER: [unknown]" := by
  apply C1_planner_unknown_fallback
  intro out hout
  injection hout with hout
  subst hout
  decide

/-! ## Claim C5 -/

/-- C5: when some scanned line of the completion output has stripped text
starting with `FUNCTION_CALL:` or `FINAL_ANSWER:`, `generate_plan`
returns exactly the first such line (top-to-bottom), stripped, ignoring
all later lines. -/
theorem C5_first_directive_line (perception : PerceptionResult)
    (memory_items : List MemoryItem) (tool_descriptions : Option String)
    (step_num max_steps : Nat) (user_email spreadsheet_id table_data : Option String)
    (model : String → Except String String) (out line : String) (i : Nat)
    (hm : model (buildPrompt perception memory_items tool_descriptions step_num
        max_steps user_email spreadsheet_id table_data) = Except.ok out)
    (hline : (planLines out)[i]? = some line)
    (hmatch : isDirectiveLine line = true)
    (hfirst : ∀ l ∈ (planLines out).take i, isDirectiveLine l = false) :
    generate_plan perception memory_items tool_descriptions step_num max_steps
      user_email spreadsheet_id table_data model = pyStrip line := by
  have hfind := find?_eq_of_getElem isDirectiveLine (planLines out) i line hline hmatch
    (fun y hy => hfirst y hy)
  simp [generate_plan, hm, parsePlanOutput, hfind]

/-- C5 witness: the first matching line is returned, later ones ignored. -/
theorem C5_witness :
    generate_plan perc0 [] none 1 3 none none none
      (fun _ => Except.ok "junk\n  FINAL_ANSWER: [8]\nFUNCTION_CALL: later")
      = "FINAL_ANSWER: [8]" := by
  have h := C5_first_directive_line perc0 [] none 1 3 none none none
    (fun _ => Except.ok "junk\n  FINAL_ANSWER: [8]\nFUNCTION_CALL: later")
    "junk\n  FINAL_ANSWER: [8]\nFUNCTION_CALL: later" "  FINAL_ANSWER: [8]" 1
    rfl (by decide) (by decide) (by decide)
  rw [h]
  decide

/-! ## Claim C4 -/

/-- C4: on every planning step the prompt presents the accumulated
memory items between the fixed prefix and suffix, and (for single-line
fact texts) the memory block splits into exactly one `- <text>` line per
item, in insertion order, with no reordering, omission or
deduplication. -/
theorem C4_memory_in_order (perception : PerceptionResult)
    (memory_items : List MemoryItem) (tool_descriptions : Option String)
    (step_num max_steps : Nat) (user_email spreadsheet_id table_data : Option String)
    (hne : memory_items ≠ [])
    (hnl : ∀ m ∈ memory_items, ∀ c ∈ m.text.data, c ≠ '\n') :
    buildPrompt perception memory_items tool_descriptions step_num max_steps
        user_email spreadsheet_id table_data
      = promptBeforeMemory step_num max_steps ++ memory_texts memory_items
        ++ promptAfterMemory perception tool_descriptions user_email spreadsheet_id
            table_data ∧
    pySplitlines (memory_texts memory_items)
      = memory_items.map (fun m => "- " ++ m.text) := by
  constructor
  · unfold buildPrompt
    rw [String.append_assoc]
  · have hjoin : pyJoin "\n" (memory_items.map (fun m => "- " ++ m.text)) ≠ "" := by
      cases memory_items with
      | nil => exact absurd rfl hne
      | cons m rest =>
        intro hcon
        rw [List.map_cons] at hcon
        exact pyJoin_cons_data_ne ("- " ++ m.text) (rest.map (fun mm => "- " ++ mm.text))
          (by simp [string_data_append]) (congrArg String.data hcon)
    unfold memory_texts
    simp only [hjoin, if_false]
    apply pySplitlines_join
    · simpa using hne
    · intro x hx
      simp only [List.mem_map] at hx
      obtain ⟨m, hm, hx⟩ := hx
      subst hx
      constructor
      · simp [string_data_append]
      · intro c hc
        rw [string_data_append] at hc
        rcases List.mem_append.mp hc with h1 | h2
        · intro hcn
          subst hcn
          exact absurd h1 (by decide)
        · exact hnl m hm c h2

/-- C4 witness: two concrete single-line memory items. -/
theorem C4_witness :
    buildPrompt perc0 [MemoryItem.mk "fact one", MemoryItem.mk "fact two"] none 1 3
        none none none
      = promptBeforeMemory 1 3
        ++ memory_texts [MemoryItem.mk "fact one", MemoryItem.mk "fact two"]
        ++ promptAfterMemory perc0 none none none none ∧
    pySplitlines (memory_texts [MemoryItem.mk "fact one", MemoryItem.mk "fact two"])
      = [MemoryItem.mk "fact one", MemoryItem.mk "fact two"].map
          (fun m => "- " ++ m.text) :=
  C4_memory_in_order perc0 [MemoryItem.mk "fact one", MemoryItem.mk "fact two"]
    none 1 3 none none none (by decide) (by decide)

/-! ## Claim C2 -/

theorem recentInvokes_append_note (mem : List LoopMemEntry) (s : String) :
    recentInvokes (mem ++ [LoopMemEntry.note s]) = recentInvokes mem := by
  simp [recentInvokes, List.filterMap_append, invokeOf]

theorem recentInvokes_append_tool (mem : List LoopMemEntry) (t : String)
    (a : List (String × String)) (r : String) :
    recentInvokes (mem ++ [LoopMemEntry.toolResult t a r])
      = (t, a, r) :: (recentInvokes mem).take 1 := by
  simp [recentInvokes, List.filterMap_append, invokeOf, List.take_succ_cons,
    List.take_take]

theorem repeatGuard_append_note (mem : List LoopMemEntry) (s t : String)
    (a : List (String × String)) :
    repeatGuard (mem ++ [LoopMemEntry.note s]) t a = repeatGuard mem t a := by
  simp [repeatGuard, recentInvokes_append_note]

/-- C2 (spec-modelled): after the planner has issued the same `Invoke`
twice in a row and the dispatcher answers it with a non-empty result,
the loop does not execute the dispatcher a third time with the identical
arguments — the step is suppressed and the loop requests finalization on
the following step instead. -/
theorem C2_no_third_identical_dispatch
    (dispatch : String → List (String × String) → String)
    (mem : List LoopMemEntry) (tool_name : String)
    (arguments : List (String × String))
    (hr : dispatch tool_name arguments ≠ "") :
    (loopStep dispatch (memAfterTwoInvokes dispatch mem tool_name arguments)
        (Directive.invoke tool_name arguments)).dispatched = none ∧
    (loopStep dispatch (memAfterTwoInvokes dispatch mem tool_name arguments)
        (Directive.invoke tool_name arguments)).requestFinalize = true := by
  have key : repeatGuard (memAfterTwoInvokes dispatch mem tool_name arguments)
      tool_name arguments = true := by
    unfold memAfterTwoInvokes
    by_cases h1 : repeatGuard mem tool_name arguments = true
    · have hg1 : repeatGuard
          (mem ++ [LoopMemEntry.note "repeated call suppressed; finalize next"])
          tool_name arguments = true := by
        rw [repeatGuard_append_note]
        exact h1
      simp only [loopStep, h1, if_true, hg1]
      rw [repeatGuard_append_note, repeatGuard_append_note]
      exact h1
    · simp only [loopStep, h1, if_false, Bool.false_eq_true]
      by_cases h2 : repeatGuard (mem ++ [LoopMemEntry.toolResult tool_name arguments
          (dispatch tool_name arguments)]) tool_name arguments = true
      · simp only [h2, if_true]
        rw [repeatGuard_append_note]
        exact h2
      · simp only [h2, if_false, Bool.false_eq_true]
        have e1 : recentInvokes ((mem ++ [LoopMemEntry.toolResult tool_name arguments
              (dispatch tool_name arguments)]) ++ [LoopMemEntry.toolResult tool_name
              arguments (dispatch tool_name arguments)])
            = [(tool_name, arguments, dispatch tool_name arguments),
               (tool_name, arguments, dispatch tool_name arguments)] := by
          rw [recentInvokes_append_tool, recentInvokes_append_tool]
          simp [List.take_succ_cons]
        simp only [List.append_assoc, List.singleton_append, List.cons_append,
          List.nil_append] at e1
        simp [repeatGuard, e1, hr]
  simp [loopStep, key]

/-- C2 witness: a concrete trace of three identical `add` invokes. -/
theorem C2_witness :
    (loopStep dispatch0 (memAfterTwoInvokes dispatch0 [] "add" [("a", "5")])
        (Directive.invoke "add" [("a", "5")])).dispatched = none ∧
    (loopStep dispatch0 (memAfterTwoInvokes dispatch0 [] "add" [("a", "5")])
        (Directive.invoke "add" [("a", "5")])).requestFinalize = true :=
  C2_no_third_identical_dispatch dispatch0 [] "add" [("a", "5")] (by decide)

/-! ## Claim C3 -/

/-- C3 (spec-modelled): calling `call_tool` with a name that no
ToolDescriptor of the merged registry carries finds no owning session
and yields `DispatchError::UnknownTool` for every possible channel
oracle — the call is never forwarded to any session. -/
theorem C3_unknown_tool (d : Dispatcher) (name : String)
    (arguments : List (String × String))
    (h : ∀ t ∈ list_tools d, t.name ≠ name) :
    findOwner d name = none ∧
    ∀ respond, call_tool d respond name arguments
      = Except.error DispatchError.unknownTool := by
  have howner : findOwner d name = none := by
    rw [findOwner, List.find?_eq_none]
    intro s hs
    simp only [Bool.not_eq_true, List.any_eq_false]
    intro t ht
    have : t ∈ list_tools d := by
      simp only [list_tools, List.mem_flatten]
      exact ⟨s.tools, List.mem_map_of_mem MCPSession.tools hs, ht⟩
    simp [h t this]
  exact ⟨howner, fun respond => by simp [call_tool, howner]⟩

/-- C3 witness: a one-session dispatcher and an absent tool name. -/
theorem C3_witness :
    findOwner dispatcher0 "subtract" = none ∧
    call_tool dispatcher0 respond0 "subtract" []
      = Except.error DispatchError.unknownTool := by
  have h := C3_unknown_tool dispatcher0 "subtract" [] (by decide)
  exact ⟨h.1, h.2 respond0⟩

/-! ## Claim C6 -/

/-- C6: `process_telegram_message` always hands its caller an `Except.ok`
text — never an error — and any exception escaping the inner workflow is
converted into the explicit `"❌ Error processing your request: ..."`
string. -/
theorem C6_handler_total (message : String) (o : AgentOracles) :
    (∃ s, process_telegram_message message o = Except.ok s) ∧
    (∀ e, process_telegram_message_body message o = Except.error e →
      process_telegram_message message o
        = Except.ok ("❌ Error processing your request: " ++ e)) := by
  constructor
  · cases h : process_telegram_message_body message o with
    | ok s => exact ⟨s, by simp [process_telegram_message, h]⟩
    | error e =>
      exact ⟨"❌ Error processing your request: " ++ e,
        by simp [process_telegram_message, h]⟩
  · intro e he
    simp [process_telegram_message, he]

/-- C6 witness: an agent run that raises is converted into the explicit
error string. -/
theorem C6_witness :
    process_telegram_message "find cat facts for a@b.co" oracleFail
      = Except.ok ("❌ Error processing your request: " ++ "boom") :=
  (C6_handler_total "find cat facts for a@b.co" oracleFail).2 "boom"
    (show process_telegram_message_body "find cat facts for a@b.co" oracleFail
        = Except.error "boom" from rfl)

/-! ## Claim C7 -/

/-- C7 (counterexample): the telegram server does keep process-wide
mutable session state — `get_updates` writes the most recent chat id
into the module-level `active_chat_id`, and `send_message` called with
identical explicit arguments behaves differently depending on that
global. -/
theorem C7_counterexample :
    (get_updates tgStateEmpty (Except.ok [TgUpdateRec.mk (some "111")])
        tgRender0).1.active_chat_id = some "111" ∧
    tgStateEmpty.active_chat_id = none ∧
    (send_message tgStateEmpty "hi" none "t0" tgSend0).2
      ≠ (send_message tgStateActive "hi" none "t0" tgSend0).2 := by
  refine ⟨rfl, rfl, ?_⟩
  decide

/-- C7 (amended): the telegram server keeps the process-wide mutable
`active_chat_id`: `get_updates` overwrites it with the most recently
seen chat id, and `send_message` without an explicit `chat_id` falls
back to it — behaving exactly as if the global had been passed as the
argument. -/
theorem C7_global_session_state (st : TgState) (updates : List TgUpdateRec)
    (render : List TgUpdateRec → List String → Option String → String)
    (text now : String) (tgSend : String → String → Except String Unit) :
    (get_updates st (Except.ok updates) render).1.active_chat_id
      = (match (updates.filterMap TgUpdateRec.messageChatId).getLast? with
         | some c => some c
         | none => st.active_chat_id) ∧
    send_message st text none now tgSend
      = send_message st text st.active_chat_id now tgSend := by
  constructor
  · have fold_last : ∀ (l : List String) (init : Option String),
        l.foldl (fun _ c => some c) init
          = (match l.getLast? with
             | some c => some c
             | none => init) := by
      intro l
      induction l with
      | nil => intro init; rfl
      | cons a t ih =>
        intro init
        rw [List.foldl_cons, ih (some a)]
        cases t with
        | nil => rfl
        | cons b t' =>
          rw [List.getLast?_cons_cons]
          cases hbt : (b :: t').getLast? with
          | some c => rfl
          | none => exact absurd (List.getLast?_eq_none_iff.mp hbt) (by simp)
    simp [get_updates, fold_last]
  · unfold send_message
    cases h : st.active_chat_id with
    | none => rfl
    | some s =>
      by_cases hs : s = ""
      · subst hs
        simp [pyOrOpt]
      · simp [pyOrOpt, hs]

/-! ## Claim C8 -/

/-- C8: every MCP tool function is total at the tool boundary — for all
inputs and all oracle outcomes it produces a `TextContent` (type
`"text"`), and the Google tools never surface an `Except.error`: every
internal failure has been converted into an error-describing text. -/
theorem C8_tools_total :
    (∀ st text chat_id now tgSend,
      (send_message st text chat_id now tgSend).2.type = "text") ∧
    (∀ st fetch render, (get_updates st fetch render).2.type = "text") ∧
    (∀ st chat_id render, (inspect_queue st chat_id render).2.type = "text") ∧
    (∀ st chat_id direction render,
      (receive_message st chat_id direction render).2.type = "text") ∧
    (∀ st chat_id text now,
      (simulate_incoming_message st chat_id text now).2.type = "text") ∧
    (∀ creds buildSvc createExec cfgFolder moveExec render,
      ∃ t, create_spreadsheet creds buildSvc createExec cfgFolder moveExec render
            = Except.ok t ∧ t.type = "text") ∧
    (∀ creds buildSvc updateExec,
      ∃ t, update_sheet creds buildSvc updateExec = Except.ok t ∧ t.type = "text") ∧
    (∀ email creds buildSvc permExec,
      ∃ t, share_sheet email creds buildSvc permExec = Except.ok t ∧ t.type = "text") ∧
    (∀ creds buildSvc sendExec,
      ∃ t, send_email creds buildSvc sendExec = Except.ok t ∧ t.type = "text") ∧
    (∀ creds buildSvc sendExec,
      ∃ t, send_email_with_link creds buildSvc sendExec = Except.ok t
            ∧ t.type = "text") := by
  refine ⟨?_, ?_, ?_, ?_, ?_, ?_, ?_, ?_, ?_, ?_⟩
  · intro st text chat_id now tgSend
    unfold send_message
    cases pyOrOpt chat_id st.active_chat_id with
    | none => rfl
    | some cid =>
      by_cases h : cid = ""
      · simp [h]
      · simp only [h, if_false]
        cases tgSend cid text <;> rfl
  · intro st fetch render
    unfold get_updates
    cases fetch <;> rfl
  · intro st chat_id render
    unfold inspect_queue
    by_cases h : hasQueue st chat_id <;> simp [h]
  · intro st chat_id direction render
    simp only [receive_message]
    cases h : queueOfD (ensureQueue st (if chat_id = "" then "default" else chat_id))
        (if chat_id = "" then "default" else chat_id) with
    | nil => simp [h]
    | cons m rest =>
      simp only [h]
      cases direction with
      | none => rfl
      | some d =>
        by_cases hd : d = ""
        · simp [hd]
        · simp only [hd, if_false]
          by_cases hm : pyLower (pyStrip m.direction) ≠ pyLower (pyStrip d)
            <;> simp [hm]
  · intro st chat_id text now
    rfl
  · intro creds buildSvc createExec cfgFolder moveExec render
    cases creds with
    | none => exact ⟨_, rfl, rfl⟩
    | some u =>
      cases buildSvc with
      | error e => exact ⟨_, rfl, rfl⟩
      | ok v =>
        cases createExec with
        | error e => exact ⟨_, rfl, rfl⟩
        | ok sid =>
          cases cfgFolder with
          | none => exact ⟨_, rfl, rfl⟩
          | some fid => cases moveExec <;> exact ⟨_, rfl, rfl⟩
  · intro creds buildSvc updateExec
    cases creds with
    | none => exact ⟨_, rfl, rfl⟩
    | some u =>
      cases buildSvc with
      | error e => exact ⟨_, rfl, rfl⟩
      | ok v => cases updateExec <;> exact ⟨_, rfl, rfl⟩
  · intro email creds buildSvc permExec
    cases creds with
    | none => exact ⟨_, rfl, rfl⟩
    | some u =>
      cases buildSvc with
      | error e => exact ⟨_, rfl, rfl⟩
      | ok v => cases permExec <;> exact ⟨_, rfl, rfl⟩
  · intro creds buildSvc sendExec
    cases creds with
    | none => exact ⟨_, rfl, rfl⟩
    | some u =>
      cases buildSvc with
      | error e => exact ⟨_, rfl, rfl⟩
      | ok v => cases sendExec <;> exact ⟨_, rfl, rfl⟩
  · intro creds buildSvc sendExec
    cases creds with
    | none => exact ⟨_, rfl, rfl⟩
    | some u =>
      cases buildSvc with
      | error e => exact ⟨_, rfl, rfl⟩
      | ok v => cases sendExec <;> exact ⟨_, rfl, rfl⟩

/-! ## Claim C9 -/

theorem find?_setQueueList_self (cid : String) (q : List TgMessage) :
    ∀ l : List (String × List TgMessage),
      (setQueueList cid q l).find? (fun p => p.1 = cid) = some (cid, q) := by
  intro l
  induction l with
  | nil => simp [setQueueList]
  | cons p rest ih =>
    by_cases h : p.1 = cid
    · simp [setQueueList, h]
    · simp [setQueueList, h, ih]

theorem find?_setQueueList_ne (cid c : String) (q : List TgMessage) (hc : c ≠ cid) :
    ∀ l : List (String × List TgMessage),
      (setQueueList cid q l).find? (fun p => p.1 = c)
        = l.find? (fun p => p.1 = c) := by
  have h1 : ¬ cid = c := fun hh => hc hh.symm
  intro l
  induction l with
  | nil =>
    simp only [setQueueList]
    simp [List.find?, h1]
  | cons p rest ih =>
    by_cases h : p.1 = cid
    · have h2 : ¬ p.1 = c := by
        rw [h]
        exact h1
      simp only [setQueueList]
      rw [if_pos h]
      simp [List.find?, h1, h2]
    · simp only [setQueueList]
      rw [if_neg h]
      by_cases h2 : p.1 = c
      · simp [List.find?, h2]
      · simp [List.find?, h2, ih]

theorem queueOfD_setQueue_self (st : TgState) (cid : String) (q : List TgMessage) :
    queueOfD (setQueue st cid q) cid = q := by
  simp [queueOfD, setQueue, find?_setQueueList_self]

theorem queueOfD_setQueue_ne (st : TgState) (cid c : String) (q : List TgMessage)
    (hc : c ≠ cid) : queueOfD (setQueue st cid q) c = queueOfD st c := by
  simp [queueOfD, setQueue, find?_setQueueList_ne cid c q hc]

theorem queueOfD_ensureQueue (st : TgState) (cid c : String) :
    queueOfD (ensureQueue st cid) c = queueOfD st c := by
  unfold ensureQueue
  by_cases h : hasQueue st cid
  · simp [h]
  · simp only [h, Bool.false_eq_true, if_false]
    by_cases hc : c = cid
    · subst hc
      rw [queueOfD_setQueue_self]
      unfold queueOfD
      unfold hasQueue at h
      cases hfind : st.sse_clients.find? (fun p => p.1 = c) with
      | none => rfl
      | some p => rw [hfind] at h; simp at h
    · exact queueOfD_setQueue_ne st cid c [] hc

theorem foldl_enqueue (l : List TgMessage) :
    ∀ init : List TgMessage, l.foldl (fun q m => q ++ [m]) init = init ++ l := by
  induction l with
  | nil => intro init; simp
  | cons m rest ih => intro init; simp [ih]

/-- C9: `receive_message` and `inspect_queue` preserve the multiset of
queued messages of every chat: `receive_message` at most rotates the
examined head message to the back of its chat's queue and leaves every
other queue untouched; `inspect_queue` re-enqueues everything it drained
in the original order, leaving every queue exactly as it was. -/
theorem C9_queues_preserved :
    (∀ (st : TgState) (chat_id : String) (direction : Option String)
        (render : TgMessage → String),
      ((queueOfD (receive_message st chat_id direction render).1
          (if chat_id = "" then "default" else chat_id)).Perm
        (queueOfD st (if chat_id = "" then "default" else chat_id))) ∧
      (∀ c, c ≠ (if chat_id = "" then "default" else chat_id) →
        queueOfD (receive_message st chat_id direction render).1 c
          = queueOfD st c)) ∧
    (∀ (st : TgState) (chat_id : String)
        (render : String → Nat → List TgMessage → String) (c : String),
      queueOfD (inspect_queue st chat_id render).1 c = queueOfD st c) := by
  constructor
  · intro st chat_id direction render
    have hst1 : ∀ c, queueOfD (ensureQueue st (if chat_id = "" then "default" else chat_id)) c
        = queueOfD st c := fun c => queueOfD_ensureQueue st _ c
    simp only [receive_message]
    cases h : queueOfD (ensureQueue st (if chat_id = "" then "default" else chat_id))
        (if chat_id = "" then "default" else chat_id) with
    | nil =>
      simp only [h]
      refine ⟨?_, fun c _ => hst1 c⟩
      rw [← hst1 (if chat_id = "" then "default" else chat_id), h]
    | cons m rest =>
      have hfst : (match direction with
          | some d =>
            if d = "" then
              (setQueue (ensureQueue st (if chat_id = "" then "default" else chat_id))
                  (if chat_id = "" then "default" else chat_id) (rest ++ [m]),
                TextContent.mk "text" (render m))
            else if pyLower (pyStrip m.direction) ≠ pyLower (pyStrip d) then
              (setQueue (ensureQueue st (if chat_id = "" then "default" else chat_id))
                  (if chat_id = "" then "default" else chat_id) (rest ++ [m]),
                TextContent.mk "text" "No new messages matching the specified direction")
            else
              (setQueue (ensureQueue st (if chat_id = "" then "default" else chat_id))
                  (if chat_id = "" then "default" else chat_id) (rest ++ [m]),
                TextContent.mk "text" (render m))
          | none =>
            (setQueue (ensureQueue st (if chat_id = "" then "default" else chat_id))
                (if chat_id = "" then "default" else chat_id) (rest ++ [m]),
              TextContent.mk "text" (render m))).1
          = setQueue (ensureQueue st (if chat_id = "" then "default" else chat_id))
              (if chat_id = "" then "default" else chat_id) (rest ++ [m]) := by
        cases direction with
        | none => rfl
        | some d =>
          by_cases hd : d = ""
          · simp [hd]
          · simp only [hd, if_false]
            by_cases hm : pyLower (pyStrip m.direction) ≠ pyLower (pyStrip d)
              <;> simp [hm]
      simp only [h, hfst]
      constructor
      · rw [queueOfD_setQueue_self, ← hst1 (if chat_id = "" then "default" else chat_id), h]
        exact List.perm_append_singleton m rest
      · intro c hc
        rw [queueOfD_setQueue_ne _ _ _ _ hc, hst1 c]
  · intro st chat_id render c
    unfold inspect_queue
    by_cases h : hasQueue st chat_id
    · simp only [h, if_true]
      rw [foldl_enqueue, List.nil_append]
      by_cases hc : c = chat_id
      · subst hc
        rw [queueOfD_setQueue_self]
      · rw [queueOfD_setQueue_ne _ _ _ _ hc]
    · simp [h]

/-! ## Claim C10: lemma suite for the regex engine -/

theorem matchLen_nil : matchLen [] = none := rfl

theorem subAllFuel_congr : ∀ (f1 : Nat), ∀ (f2 : Nat) (cs : List Char),
    cs.length ≤ f1 → cs.length ≤ f2 → subAllFuel f1 cs = subAllFuel f2 cs := by
  intro f1
  induction f1 with
  | zero =>
    intro f2 cs h1 _
    have : cs = [] := List.length_eq_zero.mp (Nat.le_antisymm h1 (Nat.zero_le _))
    subst this
    cases f2 <;> rfl
  | succ f1 ih =>
    intro f2 cs h1 h2
    cases cs with
    | nil => cases f2 <;> rfl
    | cons c t =>
      cases f2 with
      | zero => exact absurd h2 (by simp)
      | succ f2 =>
        simp only [subAllFuel]
        cases matchLen (c :: t) with
        | some n =>
          apply ih f2 (t.drop (n - 1))
          · calc (t.drop (n - 1)).length ≤ t.length := by simp
              _ ≤ f1 := by simpa using h1
          · calc (t.drop (n - 1)).length ≤ t.length := by simp
              _ ≤ f2 := by simpa using h2
        | none =>
          rw [ih f2 t (by simpa using h1) (by simpa using h2)]

theorem subAll_nil : subAll [] = [] := rfl

theorem subAll_cons_match (c : Char) (t : List Char) (n : Nat)
    (h : matchLen (c :: t) = some n) :
    subAll (c :: t) = subAll (t.drop (n - 1)) := by
  unfold subAll
  simp only [List.length_cons, subAllFuel, h]
  exact subAllFuel_congr t.length _ _ (by simp) (le_refl _)

theorem subAll_cons_nomatch (c : Char) (t : List Char)
    (h : matchLen (c :: t) = none) :
    subAll (c :: t) = c :: subAll t := by
  unfold subAll
  simp only [List.length_cons, subAllFuel, h]

theorem dropWhile_eq_drop (p : Char → Bool) :
    ∀ l : List Char, l.dropWhile p = l.drop ((l.takeWhile p).length) := by
  intro l
  induction l with
  | nil => rfl
  | cons c t ih =>
    by_cases h : p c
    · simp [List.dropWhile_cons, List.takeWhile_cons, h, ih]
    · simp [List.dropWhile_cons, List.takeWhile_cons, h]

theorem dropWhile_head_false (p : Char → Bool) :
    ∀ (l : List Char) (c : Char) (rest : List Char),
      l.dropWhile p = c :: rest → p c = false := by
  intro l
  induction l with
  | nil => intro c rest h; simp at h
  | cons a t ih =>
    intro c rest h
    by_cases ha : p a
    · rw [List.dropWhile_cons_of_pos ha] at h
      exact ih c rest h
    · rw [List.dropWhile_cons_of_neg ha] at h
      cases h
      simpa using ha

theorem takeWhile_dropWhile_nil (p : Char → Bool) (l : List Char) :
    (l.dropWhile p).takeWhile p = [] := by
  cases h : l.dropWhile p with
  | nil => rfl
  | cons c rest =>
    rw [List.takeWhile_cons, dropWhile_head_false p l c rest h]
    simp

theorem takeWhile_all_append (p : Char → Bool) (B : List Char) :
    ∀ A : List Char, (∀ a ∈ A, p a = true) →
      (A ++ B).takeWhile p = A ++ B.takeWhile p := by
  intro A
  induction A with
  | nil => intro _; rfl
  | cons a t ih =>
    intro h
    simp only [List.cons_append, List.takeWhile_cons, h a (by simp)]
    rw [ih (fun x hx => h x (by simp [hx]))]
    simp

theorem goodDot_lt (M : List Char) (k : Nat) (h : goodDot M k = true) :
    k + 2 < M.length := by
  unfold goodDot at h
  simp only [Bool.and_eq_true] at h
  have h2 := h.2
  unfold letterAt at h2
  cases hM : M[k + 2]? with
  | none =>
    rw [hM] at h2
    simp at h2
  | some c => exact (List.getElem?_eq_some.mp hM).1

theorem findGoodDot_some_spec (M : List Char) :
    ∀ (j k : Nat), findGoodDot M j = some k →
      goodDot M k = true ∧ 1 ≤ k ∧ k ≤ j ∧
        ∀ k', k < k' → k' ≤ j → goodDot M k' = false := by
  intro j
  induction j with
  | zero => intro k h; simp [findGoodDot] at h
  | succ j ih =>
    intro k h
    unfold findGoodDot at h
    by_cases hg : goodDot M (j + 1) = true
    · rw [if_pos hg] at h
      cases h
      exact ⟨hg, by omega, le_refl _, fun k' h1 h2 => by omega⟩
    · rw [if_neg hg] at h
      obtain ⟨hgood, h1, h2, hmax⟩ := ih k h
      refine ⟨hgood, h1, by omega, fun k' hk1 hk2 => ?_⟩
      by_cases hkj : k' ≤ j
      · exact hmax k' hk1 hkj
      · have : k' = j + 1 := by omega
        subst this
        simpa using hg

theorem findGoodDot_none_spec (M : List Char) :
    ∀ (j : Nat), findGoodDot M j = none →
      ∀ k, 1 ≤ k → k ≤ j → goodDot M k = false := by
  intro j
  induction j with
  | zero => intro _ k h1 h2; omega
  | succ j ih =>
    intro h k h1 h2
    unfold findGoodDot at h
    by_cases hg : goodDot M (j + 1) = true
    · rw [if_pos hg] at h
      cases h
    · rw [if_neg hg] at h
      by_cases hkj : k ≤ j
      · exact ih h k h1 hkj
      · have : k = j + 1 := by omega
        subst this
        simpa using hg

theorem findGoodDot_isSome_of_good (M : List Char) :
    ∀ (j k : Nat), goodDot M k = true → 1 ≤ k → k ≤ j →
      (findGoodDot M j).isSome = true := by
  intro j
  induction j with
  | zero => intro k _ h1 h2; omega
  | succ j ih =>
    intro k hg h1 h2
    unfold findGoodDot
    by_cases hgj : goodDot M (j + 1) = true
    · rw [if_pos hgj]; rfl
    · rw [if_neg hgj]
      have hkj : k ≤ j := by
        rcases Nat.lt_or_ge k (j + 1) with h | h
        · omega
        · have : k = j + 1 := by omega
          subst this
          exact absurd hg hgj
      exact ih k hg h1 hkj

theorem goodDot_cons_succ (c : Char) (t : List Char) (j : Nat) :
    goodDot (c :: t) (j + 1) = goodDot t j := by
  simp [goodDot, letterAt, List.getElem?_cons_succ]

theorem goodDot_cons_zero_iff (c : Char) (t : List Char) :
    goodDot (c :: t) 0 = true ↔ (c = '.' ∧ first2Letters t = true) := by
  cases t with
  | nil => simp [goodDot, letterAt, first2Letters]
  | cons a t' =>
    cases t' with
    | nil => simp [goodDot, letterAt, first2Letters]
    | cons b t'' => simp [goodDot, letterAt, first2Letters, and_assoc]

theorem goodDot_nil (j : Nat) : goodDot [] j = false := by
  simp [goodDot]

theorem dotLL0_iff (M : List Char) : dotLL0 M = true ↔ ∃ j, goodDot M j = true := by
  induction M with
  | nil =>
    simp [dotLL0, goodDot_nil]
  | cons c t ih =>
    simp only [dotLL0, Bool.or_eq_true, Bool.and_eq_true, decide_eq_true_eq]
    constructor
    · rintro (⟨hdot, hf⟩ | hrest)
      · exact ⟨0, (goodDot_cons_zero_iff c t).mpr ⟨hdot, hf⟩⟩
      · obtain ⟨j, hj⟩ := ih.mp hrest
        exact ⟨j + 1, by rw [goodDot_cons_succ]; exact hj⟩
    · rintro ⟨j, hj⟩
      cases j with
      | zero => exact Or.inl ((goodDot_cons_zero_iff c t).mp hj)
      | succ j =>
        rw [goodDot_cons_succ] at hj
        exact Or.inr (ih.mpr ⟨j, hj⟩)

theorem dotLL1_iff (M : List Char) :
    dotLL1 M = true ↔ ∃ j, 1 ≤ j ∧ goodDot M j = true := by
  cases M with
  | nil =>
    simp [dotLL1, goodDot_nil]
  | cons c t =>
    simp only [dotLL1]
    rw [dotLL0_iff]
    constructor
    · rintro ⟨j, hj⟩
      exact ⟨j + 1, by omega, by rw [goodDot_cons_succ]; exact hj⟩
    · rintro ⟨j, h1, hj⟩
      cases j with
      | zero => omega
      | succ j =>
        rw [goodDot_cons_succ] at hj
        exact ⟨j, hj⟩

theorem dotLL1_false_of_dotLL0_false (M : List Char) (h : dotLL0 M = false) :
    dotLL1 M = false := by
  cases hd : dotLL1 M
  · rfl
  · obtain ⟨j, _, hj⟩ := (dotLL1_iff M).mp hd
    have := (dotLL0_iff M).mpr ⟨j, hj⟩
    rw [h] at this
    cases this

theorem link_findGoodDot (M : List Char) :
    (findGoodDot M (M.length - 1)).isSome = dotLL1 M := by
  cases h : findGoodDot M (M.length - 1) with
  | none =>
    cases hd : dotLL1 M
    · rfl
    · exfalso
      obtain ⟨j, h1, hj⟩ := (dotLL1_iff M).mp hd
      have hlt := goodDot_lt M j hj
      have := findGoodDot_none_spec M (M.length - 1) h j h1 (by omega)
      rw [this] at hj
      cases hj
  | some k =>
    obtain ⟨hg, h1, _, _⟩ := findGoodDot_some_spec M (M.length - 1) k h
    have : dotLL1 M = true := (dotLL1_iff M).mpr ⟨k, h1, hg⟩
    rw [this]
    rfl

theorem matchLen_cons_not_local (c : Char) (X : List Char)
    (h : isLocalChar c = false) : matchLen (c :: X) = none := by
  unfold matchLen
  simp [List.takeWhile_cons, h]

theorem matchLen_some_destruct (cs : List Char) (n : Nat)
    (h : matchLen cs = some n) :
    cs.takeWhile isLocalChar ≠ [] ∧
    ∃ rest k, cs.drop (cs.takeWhile isLocalChar).length = '@' :: rest ∧
      findGoodDot (rest.takeWhile isDomainChar)
        ((rest.takeWhile isDomainChar).length - 1) = some k ∧
      n = (cs.takeWhile isLocalChar).length + 1 + k + 1 +
          (((rest.takeWhile isDomainChar).drop (k + 1)).takeWhile
            isLetterChar).length := by
  simp only [matchLen] at h
  split at h
  · cases h
  · rename_i hlen
    split at h
    · rename_i rest hdrop
      simp only [domSplit] at h
      cases hfind : findGoodDot (rest.takeWhile isDomainChar)
          ((rest.takeWhile isDomainChar).length - 1) with
      | none =>
        rw [hfind] at h
        cases h
      | some k =>
        rw [hfind] at h
        simp only [Option.map_some'] at h
        injection h with h
        refine ⟨?_, rest, k, hdrop, hfind, by omega⟩
        intro hcon
        rw [hcon] at hlen
        simp at hlen
    · cases h

theorem matchLen_pos (cs : List Char) (n : Nat) (h : matchLen cs = some n) :
    1 ≤ n := by
  obtain ⟨_, rest, k, _, _, hn⟩ := matchLen_some_destruct cs n h
  omega

theorem matchLen_isSome_imp_tailMatch (V : List Char)
    (h : (matchLen V).isSome = true) : tailMatch V = true := by
  cases hm : matchLen V with
  | none => rw [hm] at h; cases h
  | some n =>
    obtain ⟨_, rest, k, hdrop, hfind, _⟩ := matchLen_some_destruct V n hm
    unfold tailMatch
    rw [dropWhile_eq_drop, hdrop]
    simp [hfind]

theorem matchLen_cons_local (c : Char) (X : List Char)
    (hc : isLocalChar c = true) :
    (matchLen (c :: X)).isSome = tailMatch X := by
  unfold matchLen tailMatch
  rw [List.takeWhile_cons_of_pos hc]
  simp only [List.length_cons, List.drop_succ_cons, ← dropWhile_eq_drop]
  rw [if_neg (by simp)]
  split
  · rename_i rest heq
    rw [heq]
    simp only [domSplit]
    cases findGoodDot (rest.takeWhile isDomainChar)
        ((rest.takeWhile isDomainChar).length - 1) <;> simp
  · rename_i hno
    cases hd : X.dropWhile isLocalChar with
    | nil => rfl
    | cons d Y =>
      have hdat : ¬ d = '@' := by
        intro hcon
        subst hcon
        exact hno Y hd
      simp [hdat]

theorem takeWhile_length_le (p : Char → Bool) :
    ∀ l : List Char, (l.takeWhile p).length ≤ l.length := by
  intro l
  induction l with
  | nil => simp
  | cons c t ih =>
    rw [List.takeWhile_cons]
    by_cases h : p c
    · simp only [h, if_true, List.length_cons]
      omega
    · simp only [h, Bool.false_eq_true, if_false, List.length_nil, List.length_cons]
      omega

theorem domain_of_letter (c : Char) (h : isLetterChar c = true) :
    isDomainChar c = true := by
  simp [isDomainChar, h]

theorem goodDot_drop (M : List Char) (m j : Nat) :
    goodDot (M.drop m) j = goodDot M (m + j) := by
  simp [goodDot, letterAt, List.getElem?_drop, Nat.add_assoc]

/-- Core residue lemma: after removing a match from the front of `Z`,
the remainder starts with a non-letter and its leading domain run
contains no dot followed by two letters — the greedy engine has already
consumed the right-most such dot. -/
theorem match_residue (Z : List Char) (n : Nat) (h : matchLen Z = some n) :
    dotLL0 (domRun (Z.drop n)) = false ∧ headNotLetter (Z.drop n) = true := by
  obtain ⟨hL, rest, k, hdrop, hfind, hn⟩ := matchLen_some_destruct Z n h
  set M := rest.takeWhile isDomainChar with hM
  set tlen := ((M.drop (k + 1)).takeWhile isLetterChar).length with htlen
  obtain ⟨hg, hk1, hkle, hmax⟩ := findGoodDot_some_spec M (M.length - 1) k hfind
  have hklt : k + 2 < M.length := goodDot_lt M k hg
  have htlen_le : tlen ≤ M.length - (k + 1) := by
    calc tlen ≤ (M.drop (k + 1)).length := takeWhile_length_le _ _
      _ = M.length - (k + 1) := by simp
  have hme : k + 1 + tlen ≤ M.length := by omega
  have h1 : Z.drop n = rest.drop (k + 1 + tlen) := by
    have hn2 : n = (Z.takeWhile isLocalChar).length + (1 + (k + 1 + tlen)) := by omega
    rw [hn2, ← List.drop_drop, hdrop,
      show 1 + (k + 1 + tlen) = (k + 1 + tlen) + 1 by omega, List.drop_succ_cons]
  have hrest : M ++ rest.dropWhile isDomainChar = rest := by
    rw [hM]
    exact List.takeWhile_append_dropWhile isDomainChar rest
  have h2 : rest.drop (k + 1 + tlen)
      = M.drop (k + 1 + tlen) ++ rest.dropWhile isDomainChar := by
    conv_lhs => rw [← hrest]
    rw [List.drop_append_eq_append_drop]
    have : k + 1 + tlen - M.length = 0 := by omega
    rw [this, List.drop_zero]
  have h3 : M.drop (k + 1 + tlen) = (M.drop (k + 1)).dropWhile isLetterChar := by
    rw [show k + 1 + tlen = (k + 1) + tlen by omega, ← List.drop_drop,
      htlen, ← dropWhile_eq_drop]
  constructor
  · -- the domain run of the residue is M.drop (k+1+tlen), free of ".LL"
    have hall : ∀ a ∈ M.drop (k + 1 + tlen), isDomainChar a = true := by
      intro a ha
      exact List.mem_takeWhile_imp (List.mem_of_mem_drop ha)
    have hdom : domRun (Z.drop n) = M.drop (k + 1 + tlen) := by
      rw [h1, h2]
      unfold domRun
      rw [takeWhile_all_append _ _ _ hall, takeWhile_dropWhile_nil,
        List.append_nil]
    rw [hdom]
    cases hcon : dotLL0 (M.drop (k + 1 + tlen))
    · rfl
    · exfalso
      obtain ⟨j, hj⟩ := (dotLL0_iff _).mp hcon
      rw [goodDot_drop] at hj
      have hjlt : (k + 1 + tlen + j) + 2 < M.length := goodDot_lt M _ hj
      have := hmax (k + 1 + tlen + j) (by omega) (by omega)
      rw [this] at hj
      cases hj
  · -- the residue starts with a non-letter
    rw [h1, h2, h3]
    cases hXd : (M.drop (k + 1)).dropWhile isLetterChar with
    | cons c' Y' =>
      have : isLetterChar c' = false := dropWhile_head_false _ _ c' Y' hXd
      simp [headNotLetter, this]
    | nil =>
      simp only [List.nil_append]
      cases hD : rest.dropWhile isDomainChar with
      | nil => rfl
      | cons d Dr =>
        have hd : isDomainChar d = false := dropWhile_head_false _ _ d Dr hD
        have : isLetterChar d = false := by
          cases hl : isLetterChar d
          · rfl
          · rw [domain_of_letter d hl] at hd
            cases hd
        simp [headNotLetter, this]

theorem domRun_cons_pos (c : Char) (X : List Char) (h : isDomainChar c = true) :
    domRun (c :: X) = c :: domRun X := by
  simp [domRun, List.takeWhile_cons, h]

theorem domRun_cons_neg (c : Char) (X : List Char) (h : isDomainChar c = false) :
    domRun (c :: X) = [] := by
  simp [domRun, List.takeWhile_cons, h]

theorem first2_cons_eq (c : Char) (X : List Char) :
    first2Letters (c :: X) = (isLetterChar c && first1Letter X) := by
  cases X <;> simp [first2Letters, first1Letter]

theorem first1_false_of_headNotLetter (L : List Char)
    (h : headNotLetter L = true) : first1Letter (domRun L) = false := by
  cases L with
  | nil => rfl
  | cons c X =>
    simp only [headNotLetter, Bool.not_eq_true'] at h
    by_cases hd : isDomainChar c = true
    · rw [domRun_cons_pos c X hd]
      simp [first1Letter, h]
    · rw [domRun_cons_neg c X (by simpa using hd)]
      rfl

theorem first2_false_of_first1_false (X : List Char)
    (h : first1Letter X = false) : first2Letters X = false := by
  cases X with
  | nil => rfl
  | cons c Y =>
    rw [first2_cons_eq]
    simp only [first1Letter] at h
    simp [h]

theorem tailMatch_cons_local (c : Char) (X : List Char)
    (hc : isLocalChar c = true) : tailMatch (c :: X) = tailMatch X := by
  unfold tailMatch
  rw [List.dropWhile_cons_of_pos hc]

theorem tailMatch_cons_not_local (c : Char) (X : List Char)
    (hc : isLocalChar c = false) :
    tailMatch (c :: X) = ((c = '@') && (findGoodDot (X.takeWhile isDomainChar)
      ((X.takeWhile isDomainChar).length - 1)).isSome) := by
  unfold tailMatch
  rw [List.dropWhile_cons_of_neg (by simp [hc])]

theorem matchLen_none_of_isSome_false (Y : List Char)
    (h : (matchLen Y).isSome = false) : matchLen Y = none := by
  cases hm : matchLen Y
  · rfl
  · rw [hm] at h
    cases h

theorem drop_sub_one_eq (c : Char) (t : List Char) (n : Nat) (h : 1 ≤ n) :
    t.drop (n - 1) = (c :: t).drop n := by
  cases n with
  | zero => omega
  | succ m => simp

theorem subAll_headNotLetter_aux : ∀ (b : Nat) (Z : List Char), Z.length ≤ b →
    (matchLen Z).isSome = true → headNotLetter (subAll Z) = true := by
  intro b
  induction b with
  | zero =>
    intro Z hb h
    have : Z = [] := List.length_eq_zero.mp (Nat.le_antisymm hb (Nat.zero_le _))
    subst this
    rw [matchLen_nil] at h
    cases h
  | succ b ih =>
    intro Z hb h
    cases Z with
    | nil => rw [matchLen_nil] at h; cases h
    | cons c t =>
      cases hm : matchLen (c :: t) with
      | none => rw [hm] at h; cases h
      | some n =>
        have hpos := matchLen_pos _ _ hm
        have heq : subAll (c :: t) = subAll ((c :: t).drop n) := by
          rw [subAll_cons_match c t n hm, drop_sub_one_eq c t n hpos]
        obtain ⟨hdot, hhead⟩ := match_residue (c :: t) n hm
        have hlen : ((c :: t).drop n).length ≤ b := by
          simp only [List.length_cons] at hb
          simp only [List.length_drop, List.length_cons]
          omega
        rw [heq]
        cases hm2 : matchLen ((c :: t).drop n) with
        | some m =>
          exact ih ((c :: t).drop n) hlen (by rw [hm2]; rfl)
        | none =>
          cases hd : (c :: t).drop n with
          | nil => rfl
          | cons d Y =>
            rw [hd] at hm2 hhead
            rw [subAll_cons_nomatch d Y hm2]
            simpa [headNotLetter] using hhead

theorem subAll_first1 (Z : List Char)
    (h : first1Letter (domRun Z) = false) :
    first1Letter (domRun (subAll Z)) = false := by
  cases Z with
  | nil => exact h
  | cons c t =>
    cases hm : matchLen (c :: t) with
    | some n =>
      have hh := subAll_headNotLetter_aux (c :: t).length (c :: t) (le_refl _)
        (by rw [hm]; rfl)
      exact first1_false_of_headNotLetter _ hh
    | none =>
      rw [subAll_cons_nomatch c t hm]
      by_cases hd : isDomainChar c = true
      · rw [domRun_cons_pos c t hd] at h
        rw [domRun_cons_pos c _ hd]
        simpa [first1Letter] using h
      · rw [domRun_cons_neg c _ (by simpa using hd)]
        rfl

theorem subAll_first2 (Z : List Char)
    (h : first2Letters (domRun Z) = false) :
    first2Letters (domRun (subAll Z)) = false := by
  cases Z with
  | nil => exact h
  | cons c t =>
    cases hm : matchLen (c :: t) with
    | some n =>
      have hh := subAll_headNotLetter_aux (c :: t).length (c :: t) (le_refl _)
        (by rw [hm]; rfl)
      exact first2_false_of_first1_false _ (first1_false_of_headNotLetter _ hh)
    | none =>
      rw [subAll_cons_nomatch c t hm]
      by_cases hd : isDomainChar c = true
      · rw [domRun_cons_pos c t hd] at h
        rw [domRun_cons_pos c _ hd]
        rw [first2_cons_eq] at h ⊢
        by_cases hlc : isLetterChar c = true
        · simp only [hlc, Bool.true_and] at h ⊢
          exact subAll_first1 t h
        · simp [Bool.eq_false_iff.mpr hlc]
      · rw [domRun_cons_neg c _ (by simpa using hd)]
        rfl

theorem subAll_dotLL0_aux : ∀ (b : Nat) (Z : List Char), Z.length ≤ b →
    dotLL0 (domRun Z) = false → dotLL0 (domRun (subAll Z)) = false := by
  intro b
  induction b with
  | zero =>
    intro Z hb h
    have : Z = [] := List.length_eq_zero.mp (Nat.le_antisymm hb (Nat.zero_le _))
    subst this
    exact h
  | succ b ih =>
    intro Z hb h
    cases Z with
    | nil => exact h
    | cons c t =>
      cases hm : matchLen (c :: t) with
      | some n =>
        have hpos := matchLen_pos _ _ hm
        have heq : subAll (c :: t) = subAll ((c :: t).drop n) := by
          rw [subAll_cons_match c t n hm, drop_sub_one_eq c t n hpos]
        obtain ⟨hdot, _⟩ := match_residue (c :: t) n hm
        have hlen : ((c :: t).drop n).length ≤ b := by
          simp only [List.length_cons] at hb
          simp only [List.length_drop, List.length_cons]
          omega
        rw [heq]
        exact ih ((c :: t).drop n) hlen hdot
      | none =>
        rw [subAll_cons_nomatch c t hm]
        by_cases hd : isDomainChar c = true
        · rw [domRun_cons_pos c t hd] at h
          rw [domRun_cons_pos c _ hd]
          simp only [dotLL0, Bool.or_eq_false_iff, Bool.and_eq_false_iff] at h ⊢
          obtain ⟨h1, h2⟩ := h
          refine ⟨?_, ih t (by simp only [List.length_cons] at hb; omega) h2⟩
          rcases h1 with h1 | h1
          · exact Or.inl h1
          · exact Or.inr (subAll_first2 t h1)
        · rw [domRun_cons_neg c _ (by simpa using hd)]
          rfl

theorem subAll_dotLL0 (Z : List Char) (h : dotLL0 (domRun Z) = false) :
    dotLL0 (domRun (subAll Z)) = false :=
  subAll_dotLL0_aux Z.length Z (le_refl _) h

theorem subAll_dotLL0_of_match (Z : List Char) (n : Nat)
    (h : matchLen Z = some n) : dotLL0 (domRun (subAll Z)) = false := by
  cases Z with
  | nil => rw [matchLen_nil] at h; cases h
  | cons c t =>
    have hpos := matchLen_pos _ _ h
    have heq : subAll (c :: t) = subAll ((c :: t).drop n) := by
      rw [subAll_cons_match c t n h, drop_sub_one_eq c t n hpos]
    obtain ⟨hdot, _⟩ := match_residue (c :: t) n h
    rw [heq]
    exact subAll_dotLL0 _ hdot

theorem subAll_dotLL1 (Z : List Char) (h : dotLL1 (domRun Z) = false) :
    dotLL1 (domRun (subAll Z)) = false := by
  cases Z with
  | nil => exact h
  | cons c t =>
    cases hm : matchLen (c :: t) with
    | some n =>
      exact dotLL1_false_of_dotLL0_false _ (subAll_dotLL0_of_match (c :: t) n hm)
    | none =>
      rw [subAll_cons_nomatch c t hm]
      by_cases hd : isDomainChar c = true
      · rw [domRun_cons_pos c t hd] at h
        rw [domRun_cons_pos c _ hd]
        simp only [dotLL1] at h ⊢
        exact subAll_dotLL0 t h
      · rw [domRun_cons_neg c _ (by simpa using hd)]
        rfl

theorem subAll_tailMatch_aux : ∀ (b : Nat) (W : List Char), W.length ≤ b →
    matchLen W = none → tailMatch W = false → tailMatch (subAll W) = false := by
  intro b
  induction b with
  | zero =>
    intro W hb _ h
    have : W = [] := List.length_eq_zero.mp (Nat.le_antisymm hb (Nat.zero_le _))
    subst this
    exact h
  | succ b ih =>
    intro W hb hm ht
    cases W with
    | nil => exact ht
    | cons c V =>
      rw [subAll_cons_nomatch c V hm]
      by_cases hc : isLocalChar c = true
      · rw [tailMatch_cons_local c _ hc]
        rw [tailMatch_cons_local c V hc] at ht
        have hmV : matchLen V = none := by
          apply matchLen_none_of_isSome_false
          cases hs : (matchLen V).isSome
          · rfl
          · rw [matchLen_isSome_imp_tailMatch V hs] at ht
            cases ht
        exact ih V (by simp only [List.length_cons] at hb; omega) hmV ht
      · have hcf : isLocalChar c = false := by simpa using hc
        rw [tailMatch_cons_not_local c _ hcf]
        rw [tailMatch_cons_not_local c V hcf] at ht
        by_cases hat : c = '@'
        · have hd : (decide (c = '@')) = true := by simp [hat]
          rw [hd, Bool.true_and] at ht ⊢
          rw [link_findGoodDot] at ht ⊢
          exact subAll_dotLL1 V ht
        · have hd : (decide (c = '@')) = false := by simp [hat]
          rw [hd, Bool.false_and]

theorem subAll_noMatch_aux : ∀ (b : Nat) (Z : List Char), Z.length ≤ b →
    ∀ i, matchLen ((subAll Z).drop i) = none := by
  intro b
  induction b with
  | zero =>
    intro Z hb i
    have : Z = [] := List.length_eq_zero.mp (Nat.le_antisymm hb (Nat.zero_le _))
    subst this
    simp [subAll_nil, matchLen_nil]
  | succ b ih =>
    intro Z hb i
    cases Z with
    | nil => simp [subAll_nil, matchLen_nil]
    | cons c t =>
      cases hm : matchLen (c :: t) with
      | some n =>
        have hpos := matchLen_pos _ _ hm
        have heq : subAll (c :: t) = subAll ((c :: t).drop n) := by
          rw [subAll_cons_match c t n hm, drop_sub_one_eq c t n hpos]
        have hlen : ((c :: t).drop n).length ≤ b := by
          simp only [List.length_cons] at hb
          simp only [List.length_drop, List.length_cons]
          omega
        rw [heq]
        exact ih ((c :: t).drop n) hlen i
      | none =>
        rw [subAll_cons_nomatch c t hm]
        have hbt : t.length ≤ b := by
          simp only [List.length_cons] at hb
          omega
        cases i with
        | succ j =>
          rw [List.drop_succ_cons]
          exact ih t hbt j
        | zero =>
          rw [List.drop_zero]
          by_cases hc : isLocalChar c = true
          · apply matchLen_none_of_isSome_false
            have htt : tailMatch t = false := by
              cases hs : tailMatch t
              · rfl
              · exfalso
                have hcl := matchLen_cons_local c t hc
                rw [hm, hs] at hcl
                simp at hcl
            rw [matchLen_cons_local c _ hc]
            have hmt : matchLen t = none := by
              apply matchLen_none_of_isSome_false
              cases hs : (matchLen t).isSome
              · rfl
              · rw [matchLen_isSome_imp_tailMatch t hs] at htt
                cases htt
            exact subAll_tailMatch_aux t.length t (le_refl _) hmt htt
          · exact matchLen_cons_not_local c _ (by simpa using hc)

theorem firstMatch_eq_none_iff (cs : List Char) :
    firstMatch cs = none ↔ ∀ i, matchLen (cs.drop i) = none := by
  induction cs with
  | nil =>
    simp only [firstMatch]
    constructor
    · intro _ i
      rw [List.drop_nil, matchLen_nil]
    · intro _; trivial
  | cons c t ih =>
    simp only [firstMatch]
    cases hm : matchLen (c :: t) with
    | some n =>
      constructor
      · intro h; cases h
      · intro h
        have := h 0
        rw [List.drop_zero, hm] at this
        cases this
    | none =>
      rw [Option.map_eq_none']
      rw [ih]
      constructor
      · intro h i
        cases i with
        | zero => rw [List.drop_zero]; exact hm
        | succ j => rw [List.drop_succ_cons]; exact h j
      · intro h j
        have := h (j + 1)
        rw [List.drop_succ_cons] at this
        exact this

theorem firstMatch_spec :
    ∀ (cs : List Char) (i n : Nat), firstMatch cs = some (i, n) →
      matchLen (cs.drop i) = some n ∧ ∀ j, j < i → matchLen (cs.drop j) = none := by
  intro cs
  induction cs with
  | nil => intro i n h; simp [firstMatch] at h
  | cons c t ih =>
    intro i n h
    simp only [firstMatch] at h
    cases hm : matchLen (c :: t) with
    | some m =>
      rw [hm] at h
      injection h with h
      injection h with h1 h2
      subst h1
      subst h2
      exact ⟨by rw [List.drop_zero]; exact hm, fun j hj => by omega⟩
    | none =>
      rw [hm] at h
      rw [Option.map_eq_some'] at h
      obtain ⟨⟨i', n'⟩, hfm, hpair⟩ := h
      injection hpair with h1 h2
      subst h1
      subst h2
      obtain ⟨hmt, hprev⟩ := ih i' n' hfm
      refine ⟨by rw [List.drop_succ_cons]; exact hmt, fun j hj => ?_⟩
      cases j with
      | zero => rw [List.drop_zero]; exact hm
      | succ j' =>
        rw [List.drop_succ_cons]
        exact hprev j' (by omega)

theorem takeWhile_append_left (p : Char → Bool) (S : List Char) :
    ∀ A : List Char, (A.takeWhile p).length < A.length →
      (A ++ S).takeWhile p = A.takeWhile p := by
  intro A
  induction A with
  | nil => intro h; simp at h
  | cons c A' ih =>
    intro h
    by_cases hp : p c = true
    · rw [List.takeWhile_cons_of_pos hp] at h ⊢
      rw [List.cons_append, List.takeWhile_cons_of_pos hp]
      rw [ih (by simp only [List.length_cons] at h; omega)]
    · have hp2 : p c = false := by simpa using hp
      rw [List.cons_append, List.takeWhile_cons_of_neg (by simp [hp2]),
        List.takeWhile_cons_of_neg (by simp [hp2])]

theorem goodDot_append_left (A B : List Char) (k : Nat) (h : k + 2 < A.length) :
    goodDot (A ++ B) k = goodDot A k := by
  unfold goodDot letterAt
  rw [List.getElem?_append_left (by omega : k < A.length),
    List.getElem?_append_left (by omega : k + 1 < A.length),
    List.getElem?_append_left (by omega : k + 2 < A.length)]

theorem matchLen_take_isSome (cs : List Char) (j n : Nat)
    (h : matchLen (cs.take j) = some n) : (matchLen cs).isSome = true := by
  obtain ⟨hL, rest', k, hdrop, hfind, hn⟩ := matchLen_some_destruct (cs.take j) n h
  have hLlt : ((cs.take j).takeWhile isLocalChar).length < (cs.take j).length := by
    have hlen := congrArg List.length hdrop
    simp only [List.length_drop, List.length_cons] at hlen
    have := takeWhile_length_le isLocalChar (cs.take j)
    omega
  have hcs : cs.take j ++ cs.drop j = cs := List.take_append_drop j cs
  have hTW : cs.takeWhile isLocalChar = (cs.take j).takeWhile isLocalChar := by
    conv_lhs => rw [← hcs]
    exact takeWhile_append_left isLocalChar (cs.drop j) (cs.take j) hLlt
  have hdrop2 : cs.drop ((cs.take j).takeWhile isLocalChar).length
      = '@' :: (rest' ++ cs.drop j) := by
    have e1 : cs.drop ((cs.take j).takeWhile isLocalChar).length
        = (cs.take j ++ cs.drop j).drop ((cs.take j).takeWhile isLocalChar).length := by
      rw [hcs]
    rw [e1, List.drop_append_eq_append_drop,
      show ((cs.take j).takeWhile isLocalChar).length - (cs.take j).length = 0 by omega,
      List.drop_zero, hdrop]
    rfl
  obtain ⟨hg, hk1, _, _⟩ :=
    findGoodDot_some_spec (rest'.takeWhile isDomainChar)
      ((rest'.takeWhile isDomainChar).length - 1) k hfind
  have hklt := goodDot_lt _ k hg
  have hgood : goodDot ((rest' ++ cs.drop j).takeWhile isDomainChar) k = true := by
    by_cases hMf : (rest'.takeWhile isDomainChar).length < rest'.length
    · rw [takeWhile_append_left isDomainChar (cs.drop j) rest' hMf]
      exact hg
    · have hMeq : rest'.takeWhile isDomainChar = rest' :=
        (List.takeWhile_prefix isDomainChar).eq_of_length (by
          have := takeWhile_length_le isDomainChar rest'
          omega)
      have hall : ∀ a ∈ rest', isDomainChar a = true := by
        intro a ha
        rw [← hMeq] at ha
        exact List.mem_takeWhile_imp ha
      rw [takeWhile_all_append isDomainChar (cs.drop j) rest' hall]
      rw [hMeq] at hg hklt
      rw [goodDot_append_left rest' _ k hklt]
      exact hg
  have hgd_lt := goodDot_lt _ k hgood
  have hsome : (findGoodDot ((rest' ++ cs.drop j).takeWhile isDomainChar)
      (((rest' ++ cs.drop j).takeWhile isDomainChar).length - 1)).isSome = true :=
    findGoodDot_isSome_of_good _ _ k hgood hk1 (by omega)
  simp only [matchLen]
  rw [hTW]
  rw [if_neg (by
    intro hcon
    rw [List.length_eq_zero] at hcon
    exact hL hcon)]
  rw [hdrop2]
  split
  · rename_i rest2 heq
    injection heq with _ heq
    subst heq
    simp only [domSplit]
    obtain ⟨v, hv⟩ := Option.isSome_iff_exists.mp hsome
    rw [hv]
    rfl
  · rename_i hno
    exact absurd rfl (hno (rest' ++ cs.drop j))

theorem noMatch_drop (cs : List Char) (k : Nat)
    (h : ∀ i, matchLen (cs.drop i) = none) :
    ∀ i, matchLen ((cs.drop k).drop i) = none := by
  intro i
  rw [List.drop_drop]
  exact h _

theorem noMatch_take (cs : List Char) (j : Nat)
    (h : ∀ i, matchLen (cs.drop i) = none) :
    ∀ i, matchLen ((cs.take j).drop i) = none := by
  intro i
  rw [List.drop_take]
  cases hm : matchLen ((cs.drop i).take (j - i)) with
  | none => rfl
  | some n =>
    exfalso
    have := matchLen_take_isSome (cs.drop i) (j - i) n hm
    rw [h i] at this
    cases this

theorem noMatch_stripList (cs : List Char)
    (h : ∀ i, matchLen (cs.drop i) = none) :
    ∀ i, matchLen ((stripList cs).drop i) = none := by
  have h1 : ∀ i, matchLen ((cs.dropWhile pyIsSpace).drop i) = none := by
    rw [dropWhile_eq_drop]
    exact noMatch_drop cs _ h
  have h2 : stripList cs = (cs.dropWhile pyIsSpace).take
      ((cs.dropWhile pyIsSpace).length
        - ((cs.dropWhile pyIsSpace).reverse.takeWhile pyIsSpace).length) := by
    unfold stripList
    rw [dropWhile_eq_drop pyIsSpace (cs.dropWhile pyIsSpace).reverse,
      List.reverse_drop]
    simp
  rw [h2]
  exact noMatch_take _ _ h1

/-- C10: for every input message, (a) a returned non-None email is the
leftmost email-pattern match of the message (the pattern matches at its
start index and at no earlier index), (b) the returned query contains no
substring matching the email pattern (no match starts anywhere in it),
and (c) if the message contains no email-pattern substring then the
returned email is None and process_telegram_message answers, for every
oracle, with the prompt for a search query and a valid email address. -/
theorem C10_email_extraction (message : String) :
    (∀ e, (extract_query_and_email message).2 = some e →
      ∃ i n, firstMatch message.data = some (i, n)
        ∧ e = String.mk ((message.data.drop i).take n)
        ∧ matchLen (message.data.drop i) = some n
        ∧ ∀ j, j < i → matchLen (message.data.drop j) = none)
    ∧ firstMatch (extract_query_and_email message).1.data = none
    ∧ (firstMatch message.data = none →
        (extract_query_and_email message).2 = none
        ∧ ∀ o, process_telegram_message message o
            = Except.ok "Please provide both a search query and a valid email address.") := by
  refine ⟨?_, ?_, ?_⟩
  · intro e he
    simp only [extract_query_and_email, emailOf] at he
    rw [Option.map_eq_some'] at he
    obtain ⟨⟨i, n⟩, hp, he2⟩ := he
    obtain ⟨h1, h2⟩ := firstMatch_spec message.data i n hp
    exact ⟨i, n, hp, he2.symm, h1, h2⟩
  · have h0 : ∀ i, matchLen ((subAll message.data).drop i) = none :=
      subAll_noMatch_aux message.data.length message.data (le_refl _)
    have h1 : ∀ i, matchLen ((stripList (subAll message.data)).drop i) = none :=
      noMatch_stripList _ h0
    apply (firstMatch_eq_none_iff _).mpr
    show ∀ i, matchLen
      ((pyStrip (fillerSub (pyStrip (subAllStr message)))).data.drop i) = none
    cases hfc : fillerCut (pyStrip (subAllStr message)).data with
    | none =>
      have hfs : fillerSub (pyStrip (subAllStr message))
          = pyStrip (subAllStr message) := by
        simp [fillerSub, hfc]
      rw [hfs]
      exact noMatch_stripList _ h1
    | some k =>
      have hfs : fillerSub (pyStrip (subAllStr message))
          = String.mk ((pyStrip (subAllStr message)).data.take k) := by
        simp [fillerSub, hfc]
      rw [hfs]
      exact noMatch_stripList _ (noMatch_take _ k h1)
  · intro hfm
    have he : (extract_query_and_email message).2 = none := by
      simp only [extract_query_and_email, emailOf, hfm, Option.map_none']
    refine ⟨he, ?_⟩
    intro o
    simp only [process_telegram_message, process_telegram_message_body, he]

/-- Closed instance of the C10 theorem: at the message
"mail john@x.co now" (which contains an email) the returned query has no
email-pattern match, and at the message "hello" (which contains none)
the returned email is None and the workflow answers the rejection
prompt; the no-match hypothesis is discharged by rfl. -/
theorem C10_witness :
    firstMatch (extract_query_and_email "mail john@x.co now").1.data = none
    ∧ (extract_query_and_email "hello").2 = none
    ∧ process_telegram_message "hello" oracleFail
        = Except.ok "Please provide both a search query and a valid email address." :=
  ⟨(C10_email_extraction "mail john@x.co now").2.1,
    ((C10_email_extraction "hello").2.2 rfl).1,
    ((C10_email_extraction "hello").2.2 rfl).2 oracleFail⟩
